import Mathlib

/-!
# azbrowse: Terraform import expander (`internal/pkg/expanders/tfimport.go`)

A shallow embedding of the expander that turns the identifier of an Azure resource
into Terraform configuration text, and the properties of it that the specification
states.

Conventions of the embedding.

* A Go `string` is a `String`; Go compares strings byte by byte, which on UTF-8 text is
  the comparison of code points (`bytesLess`).
* A Go `error` is its message (`Error`).
* A Go `map` is an association list with distinct keys.  Where the code ranges over a
  map, the list order is the order of that iteration, which Go leaves unspecified.
* A Go run-time panic (nil dereference, a `cty` accessor applied to the wrong kind of
  value) is the result `none`.
* Everything the expander calls outside this file (the ARM client, `encoding/json`,
  `pkg/endpoints`, the provider process, the tree model, `hclwrite` output, `fmt` quoting)
  is a field of `Env`.
-/

namespace Expanders

/-! ## Strings -/

/-- Go error values, identified with their message. -/
abbrev Error := String

/-- Byte-wise `<` of Go strings, on the code points of the two texts. -/
def bytesLess : List Char → List Char → Bool
  | _, [] => false
  | [], _ :: _ => true
  | a :: as, b :: bs =>
    decide (a.toNat < b.toNat) || (decide (a.toNat = b.toNat) && bytesLess as bs)

/-- Go `a < b` on strings. -/
def stringLess (a b : String) : Bool := bytesLess a.data b.data

/-- Go `a <= b` on strings. -/
def stringLE (a b : String) : Bool := !bytesLess b.data a.data

/-- Go `sort.Strings`: the ascending arrangement of the slice. -/
def sortStrings (l : List String) : List String :=
  l.insertionSort (fun a b => stringLE a b = true)

/-- Go `strings.HasSuffix`. -/
def HasSuffix (s suffix : String) : Bool := suffix.data.isSuffixOf s.data

/-- Go `strings.ReplaceAll(s, "-", "_")`. -/
def replaceDashes (s : String) : String :=
  String.mk (s.data.map (fun c => if c = '-' then '_' else c))

/-- Go `m[key]` on a `map[string]string`: the zero value `""` for an absent key. -/
def mapGet (m : List (String × String)) (key : String) : String :=
  (m.lookup key).getD ""

/-- Go `m[key] = value` on a `map[string]string`. -/
def mapSet (m : List (String × String)) (key value : String) : List (String × String) :=
  (key, value) :: m.filter (fun kv => !(kv.1 == key))

/-! ## Provider schema and `cty` values -/

/-- The two flags of `configschema.Attribute` that `writeBlock` reads. -/
structure Attribute where
  Computed : Bool
  Optional : Bool
deriving DecidableEq, Repr

/-- A `configschema.Block`: its `Attributes` map and its `BlockTypes` map (each nested
block by its embedded `Block`; the nesting mode is not read by the code). -/
inductive Block where
  | mk (Attributes : List (String × Attribute)) (BlockTypes : List (String × Block)) : Block

/-- The part of a `cty.Type` the code asks about. -/
inductive Ty where
  | primitive
  | object (names : List String)
  | collection
deriving DecidableEq, Repr

/-- A known `cty.Value`.  `coll` is a list, set, tuple or map value with its elements in
the order of `ElementIterator`. -/
inductive Value where
  | null (ty : Ty)
  | str (s : String)
  | number (n : Int)
  | bool (b : Bool)
  | object (attrs : List (String × Value))
  | coll (elems : List Value)

/-- The test `v.Type().IsObjectType()`. -/
def Value.IsObjectType : Value → Bool
  | .object _ => true
  | .null (.object _) => true
  | _ => false

/-- The test `v.IsNull()`. -/
def Value.IsNull : Value → Bool
  | .null _ => true
  | _ => false

/-- The call `v.GetAttr(name)`; it panics unless `v` is a non-null object with that
attribute. -/
def Value.GetAttr : Value → String → Option Value
  | .object attrs, name => attrs.lookup name
  | _, _ => none

/-- The test `v.Type().HasAttribute(name)`; it panics on a type that is not an object
type. -/
def Value.HasAttribute : Value → String → Option Bool
  | .object attrs, name => some ((attrs.lookup name).isSome)
  | .null (.object names), name => some (names.contains name)
  | _, _ => none

/-- The call `v.AsString()`; it panics unless `v` is a non-null string. -/
def Value.AsString : Value → Option String
  | .str s => some s
  | _ => none

/-! ## `hclwrite` bodies -/

/-- An item of an `hclwrite.Body`, in the order in which the body is written out. -/
inductive HclItem where
  | attribute (name : String) (value : Value)
  | block (typeName : String) (labels : List String) (body : List HclItem)

/-- Whether the item is the attribute called `name`. -/
def HclItem.isAttributeNamed (name : String) : HclItem → Bool
  | .attribute n _ => n == name
  | .block _ _ _ => false

/-- The name of an attribute item. -/
def HclItem.attributeName? : HclItem → Option String
  | .attribute n _ => some n
  | .block _ _ _ => none

/-- The type name of a nested block item. -/
def HclItem.blockName? : HclItem → Option String
  | .attribute _ _ => none
  | .block n _ _ => some n

/-- The names of the attributes of a body, in output order. -/
def attributeNames (body : List HclItem) : List String :=
  body.filterMap HclItem.attributeName?

/-- The type names of the nested blocks of a body, in output order. -/
def blockNames (body : List HclItem) : List String :=
  body.filterMap HclItem.blockName?

/-- The call `body.SetAttributeValue(name, val)`: an attribute of that name is replaced
where it stands, a new one is appended. -/
def SetAttributeValue (body : List HclItem) (name : String) (val : Value) : List HclItem :=
  if body.any (HclItem.isAttributeNamed name) then
    body.map (fun it => if it.isAttributeNamed name then .attribute name val else it)
  else body ++ [.attribute name val]

/-! ## The config serializer: `writeBlock` and `printState` -/

/-- The one-letter sort key `writeBlock` puts in front of an attribute name
(lines 533-545). -/
def keyLetter (k : String) : String :=
  if k = "id" then "a"
  else if k = "name" then "b"
  else if k = "location" then "c"
  else if k = "resource_group_name" then "d"
  else if HasSuffix k "_id" || HasSuffix k "_ids" then "e"
  else "z"

/-- The slice `keys` before sorting (lines 531-547), for the map ranged over in the
order of `attributes`. -/
def prefixedKeys (attributes : List (String × Attribute)) : List String :=
  attributes.map (fun kv => keyLetter kv.1 ++ kv.1)

/-- The Go slice expression `k[1:]`. -/
def dropFirst (k : String) : String := String.mk (k.data.drop 1)

/-- The attribute loop of `writeBlock` (lines 550-557) over the sorted keys. -/
def writeAttributes (attributes : List (String × Attribute)) (state : Value) :
    List HclItem → List String → Option (List HclItem)
  | body, [] => some body
  | body, k :: ks =>
    let attributeName := dropFirst k
    match attributes.lookup attributeName with
    | none => none
    | some attributeSchema =>
      if !attributeSchema.Computed || attributeSchema.Optional then
        match state.GetAttr attributeName with
        | none => none
        | some attributeValue =>
          writeAttributes attributes state (SetAttributeValue body attributeName attributeValue) ks
      else writeAttributes attributes state body ks

/-- The element loop of `writeBlock` (lines 567-574): one nested block per element that is
an object, written by `inner`. -/
def writeElements (blockName : String) (inner : Value → Option (List HclItem)) :
    List HclItem → List Value → Option (List HclItem)
  | body, [] => some body
  | body, value :: rest =>
    if value.IsObjectType then
      match inner value with
      | none => none
      | some newBody => writeElements blockName inner (body ++ [.block blockName [] newBody]) rest
    else writeElements blockName inner body rest

mutual
/-- The function `writeBlock` (lines 523-579), on the body of `outputBlock`. -/
def writeBlock (outputBody : List HclItem) : Block → Value → Option (List HclItem)
  | .mk attributes blockTypes, state =>
    let keys := sortStrings (prefixedKeys attributes)
    match writeAttributes attributes state outputBody keys with
    | none => none
    | some body => writeBlockTypes state body blockTypes
/-- The loop over `terraformBlock.BlockTypes` (lines 559-578), in the order of the list. -/
def writeBlockTypes (state : Value) (body : List HclItem) :
    List (String × Block) → Option (List HclItem)
  | [] => some body
  | (blockName, blockSchema) :: rest =>
    match state.GetAttr blockName with
    | none => none
    | some newState =>
      if newState.IsObjectType then
        match writeBlock [] blockSchema newState with
        | none => none
        | some newBody => writeBlockTypes state (body ++ [.block blockName [] newBody]) rest
      else
        match newState with
        | .coll elems =>
          match writeElements blockName (fun value => writeBlock [] blockSchema value) body elems with
          | none => none
          | some body1 => writeBlockTypes state body1 rest
        | .null .collection => none
        | _ => writeBlockTypes state body rest
end

/-- The file `printState` builds before it is written out (lines 581-589): one `resource`
block labelled with the type name and the local name.  A missing schema is the nil
`schema.Block`. -/
def printStateFile (state : Value) (resourceTypeName : String) (schema : Option Block) :
    Option (List HclItem) :=
  match state.HasAttribute "name" with
  | none => none
  | some hasName =>
    let name? : Option String :=
      if hasName then (state.GetAttr "name").bind (fun nameValue => nameValue.AsString.map replaceDashes)
      else some "todo_resource_name"
    match name?, schema with
    | some name, some terraformBlock =>
      (writeBlock [] terraformBlock state).map
        (fun body => [HclItem.block "resource" [resourceTypeName, name] body])
    | _, _ => none

/-! ## Endpoint templates (`pkg/endpoints`) -/

/-- An `endpoints.EndpointInfo`: the template it was made from and its API version. -/
structure EndpointInfo where
  TemplateURL : String
  APIVersion : String
deriving DecidableEq, Repr

/-- The result of `EndpointInfo.Match`. -/
structure MatchResult where
  IsMatch : Bool
  Values : List (String × String)
deriving DecidableEq, Repr

/-- The constructor `endpoints.MustGetEndpointInfoFromURL`. -/
def MustGetEndpointInfoFromURL (templateURL apiVersion : String) : EndpointInfo :=
  { TemplateURL := templateURL, APIVersion := apiVersion }

/-- The package variable `vmEndpoint` (line 25). -/
def vmEndpoint : EndpointInfo :=
  MustGetEndpointInfoFromURL "/subscriptions/{subscriptionId}/resourceGroups/{resourceGroupName}/providers/Microsoft.Compute/virtualMachines/{vmName}" "2020-06-01"

/-- The table `tfimportBaseConfig` (lines 28-66), in the order of the source text. -/
def tfimportBaseConfig : List (String × EndpointInfo) :=
  [ ("azurerm_resource_group", MustGetEndpointInfoFromURL "/subscriptions/{subscriptionName}/resourceGroups/{resourceGroupName}" ""),
    ("azurerm_app_service_plan", MustGetEndpointInfoFromURL "/subscriptions/{subscriptionName}/resourceGroups/{resourceGroupName}/providers/Microsoft.Web/serverfarms/{farmName}" ""),
    ("azurerm_app_service", MustGetEndpointInfoFromURL "/subscriptions/{subscriptionName}/resourceGroups/{resourceGroupName}/providers/Microsoft.Web/sites/{siteName}" ""),
    ("azurerm_storage_account", MustGetEndpointInfoFromURL "/subscriptions/{subscriptionName}/resourceGroups/{resourceGroupName}/providers/Microsoft.Storage/storageAccounts/{accountName}" ""),
    ("azurerm_storage_container", MustGetEndpointInfoFromURL "/subscriptions/{subscriptionName}/resourceGroups/{resourceGroupName}/providers/Microsoft.Storage/storageAccounts/{accountName}/blobServices/default/containers/{containerName}" ""),
    ("azurerm_mssql_server", MustGetEndpointInfoFromURL "/subscriptions/{subscriptionName}/resourceGroups/{resourceGroupName}/providers/Microsoft.Sql/servers/{serverName}" ""),
    ("azurerm_mssql_database", MustGetEndpointInfoFromURL "/subscriptions/{subscriptionId}/resourceGroups/{resourceGroupName}/providers/Microsoft.Sql/servers/{serverName}/databases/{databaseName}" ""),
    ("azurerm_private_endpoint", MustGetEndpointInfoFromURL "/subscriptions/{subscriptionName}/resourceGroups/{resourceGroupName}/providers/Microsoft.Network/privateEndpoints/{endpointName}" ""),
    ("azurerm_network_interface", MustGetEndpointInfoFromURL "/subscriptions/{subscriptionId}/resourceGroups/{resourceGroupName}/providers/Microsoft.Network/networkInterfaces/{networkInterfaceName}" ""),
    ("azurerm_network_security_group", MustGetEndpointInfoFromURL "/subscriptions/{subscriptionId}/resourceGroups/{resourceGroupName}/providers/Microsoft.Network/networkSecurityGroups/{networkSecurityGroupName}" ""),
    ("azurerm_network_security_rule", MustGetEndpointInfoFromURL "/subscriptions/{subscriptionId}/resourceGroups/{resourceGroupName}/providers/Microsoft.Network/networkSecurityGroups/{networkSecurityGroupName}/securityRules/{securityRuleName}" ""),
    ("azurerm_private_dns_zone", MustGetEndpointInfoFromURL "/subscriptions/{subscriptionId}/resourceGroups/{resourceGroupName}/providers/Microsoft.Network/privateDnsZones/{privateZoneName}" ""),
    ("azurerm_private_dns_zone_virtual_network_link", MustGetEndpointInfoFromURL "/subscriptions/{subscriptionId}/resourceGroups/{resourceGroupName}/providers/Microsoft.Network/privateDnsZones/{privateZoneName}/virtualNetworkLinks/{virtualNetworkLinkName}" ""),
    ("azurerm_public_ip", MustGetEndpointInfoFromURL "/subscriptions/{subscriptionId}/resourceGroups/{resourceGroupName}/providers/Microsoft.Network/publicIPAddresses/{publicIpAddressName}" ""),
    ("azurerm_virtual_network_gateway", MustGetEndpointInfoFromURL "/subscriptions/{subscriptionId}/resourceGroups/{resourceGroupName}/providers/Microsoft.Network/virtualNetworkGateways/{virtualNetworkGatewayName}" ""),
    ("azurerm_virtual_network", MustGetEndpointInfoFromURL "/subscriptions/{subscriptionId}/resourceGroups/{resourceGroupName}/providers/Microsoft.Network/virtualNetworks/{virtualNetworkName}" ""),
    ("azurerm_subnet", MustGetEndpointInfoFromURL "/subscriptions/{subscriptionId}/resourceGroups/{resourceGroupName}/providers/Microsoft.Network/virtualNetworks/{virtualNetworkName}/subnets/{subnetName}" ""),
    ("azurerm_key_vault", MustGetEndpointInfoFromURL "/subscriptions/{subscriptionId}/resourceGroups/{resourceGroupName}/providers/Microsoft.KeyVault/vaults/{vaultName}" ""),
    ("azurerm_virtual_machine_extension", MustGetEndpointInfoFromURL "/subscriptions/{subscriptionId}/resourceGroups/{resourceGroupName}/providers/Microsoft.Compute/virtualMachines/{vmName}/extensions/{vmExtensionName}" ""),
    ("azurerm_managed_disk", MustGetEndpointInfoFromURL "/subscriptions/{subscriptionId}/resourceGroups/{resourceGroupName}/providers/Microsoft.Compute/disks/{diskName}" ""),
    ("azurerm_windows_virtual_machine", vmEndpoint),
    ("azurerm_linux_virtual_machine", vmEndpoint) ]

/-- The list `resourceIDIgnoreSuffices` (lines 69-75). -/
def resourceIDIgnoreSuffices : List String :=
  [ "/<diagsettings>",
    "/<activitylog>",
    "/providers/Microsoft.Resources/deployments",
    "/providers/microsoft.Insights/metrics",
    "/providers/microsoft.insights/metricdefinitions" ]

/-- The table `endpointsToIgnore` (lines 78-89). -/
def endpointsToIgnore : List (String × List EndpointInfo) :=
  [ ("azurerm_app_service",
      [ MustGetEndpointInfoFromURL "/subscriptions/{subscriptionName}/resourceGroups/{resourceGroupName}/providers/Microsoft.Web/sites/{siteName}/instances" "",
        MustGetEndpointInfoFromURL "/subscriptions/{subscriptionName}/resourceGroups/{resourceGroupName}/providers/Microsoft.Web/sites/{siteName}/processes" "" ]),
    ("azurerm_storage_container",
      [ MustGetEndpointInfoFromURL "/subscriptions/{subscriptionName}/resourceGroups/{resourceGroupName}/providers/Microsoft.Storage/storageAccounts/{accountName}/blobServices/default/containers/{containerName}/{path}" "" ]),
    ("azurerm_mssql_database",
      [ MustGetEndpointInfoFromURL "/subscriptions/{subscriptionId}/resourceGroups/{resourceGroupName}/providers/Microsoft.Sql/servers/{serverName}/databases/{databaseName}/{placeholder}" "" ]) ]

/-- The metadata key under which the resolved type name is cached. -/
def resourceTypeNameKey : String := "TerraformImportExpander_ResourceTypeName"

/-! ## External collaborators -/

/-- A value that `json.Unmarshal` stores in an `interface{}`; `null` is the nil
interface. -/
inductive JSON where
  | null
  | bool (b : Bool)
  | number (text : String)
  | string (s : String)
  | array (elems : List JSON)
  | object (members : List (String × JSON))

/-- A resource returned by the provider's import call: its type name and the prior-state
handle. -/
structure ImportedResource where
  TypeName : String
  State : Value

/-- The provider process behind `e.tfProvider.Plugin`. -/
structure TerraformProvider where
  /-- The `ResourceTypes` map of `GetSchema()`: type name to `Schema.Block`. -/
  ResourceTypes : List (String × Block)
  /-- The `ImportedResources` of `ImportResourceState`, by type name and identifier. -/
  ImportResourceState : String → String → List ImportedResource
  /-- The `NewState` of `ReadResource`, by type name and prior state. -/
  ReadResource : String → Value → Value

/-- A `TreeNode`, as far as the expander reads and writes it. -/
structure TreeNode where
  ID : String
  Metadata : List (String × String)
deriving DecidableEq, Repr

/-- What the expander calls and does not implement. -/
structure Env where
  /-- The method `(*EndpointInfo).Match`. -/
  Match : EndpointInfo → String → MatchResult
  /-- The method `(*EndpointInfo).BuildURL`. -/
  BuildURL : EndpointInfo → List (String × String) → Except Error String
  /-- The function `endpoints.GetEndpointInfoFromURL`. -/
  GetEndpointInfoFromURL : String → String → Except Error EndpointInfo
  /-- The method `e.client.DoRequest`, by method and URL. -/
  DoRequest : String → String → Except Error String
  /-- The call `json.Unmarshal` into a `map[string]interface{}` (JSON `null` gives the
  nil map, which reads as the empty one). -/
  Unmarshal : String → Except Error (List (String × JSON))
  /-- The order in which `range tfimportBaseConfig` visits the table. -/
  rangeBaseConfig : List (String × EndpointInfo)
  /-- The directory creation and `tfprovider.SetupProvider` of
  `ensureTfProviderInitialized`. -/
  SetupProvider : Except Error TerraformProvider
  /-- The function `ExpandItemAllowDefaultExpander(ctx, item, false)`: the children. -/
  ExpandItemAllowDefaultExpander : TreeNode → Except Error (List TreeNode)
  /-- The verb `%q` of `fmt` on a string. -/
  Quote : String → String
  /-- The method `file.WriteTo` of `hclwrite` into a buffer. -/
  WriteTo : List HclItem → Except Error String

/-! ## The resource type resolver -/

/-- The function `getJSONProperty` (lines 225-243) with `properties` split into its first
name and the rest; the only caller passes four names and the recursion stops at one. -/
def getJSONProperty : JSON → String → List String → Except Error JSON
  | .object jsonMap, name, rest =>
    match jsonMap.lookup name with
    | some jsonSubtree =>
      match rest with
      | [] => .ok jsonSubtree
      | next :: more => getJSONProperty jsonSubtree next more
    | none => .ok .null
  | _, _, _ => .ok .null

/-- The function `getJSONPropertyFromString` (lines 216-224). -/
def getJSONPropertyFromString (env : Env) (jsonString : String) (name : String)
    (rest : List String) : Except Error JSON :=
  match env.Unmarshal jsonString with
  | .error err => .error err
  | .ok jsonData => getJSONProperty (.object jsonData) name rest

/-- The table scan of `getResourceTypeNameFromResourceID` (lines 207-213) over the table
in the order `table`. -/
def scanBaseConfig (env : Env) (resourceID : String) : List (String × EndpointInfo) → String
  | [] => ""
  | (resourceTypeName, resourceEndpoint) :: rest =>
    if (env.Match resourceEndpoint resourceID).IsMatch then resourceTypeName
    else scanBaseConfig env resourceID rest

/-- The function `getResourceTypeNameFromResourceID` (lines 184-214). -/
def getResourceTypeNameFromResourceID (env : Env) (resourceID : String) : Except Error String :=
  if (env.Match vmEndpoint resourceID).IsMatch then
    match env.DoRequest "GET" (resourceID ++ "?api-version=" ++ vmEndpoint.APIVersion) with
    | .error err => .error err
    | .ok body =>
      match getJSONPropertyFromString env body "properties" ["storageProfile", "osDisk", "osType"] with
      | .error err => .error err
      | .ok value =>
        match value with
        | .string osType =>
          if osType = "Windows" then .ok "azurerm_windows_virtual_machine"
          else if osType = "Linux" then .ok "azurerm_linux_virtual_machine"
          else .ok (scanBaseConfig env resourceID env.rangeBaseConfig)
        | _ => .ok ""
  else .ok (scanBaseConfig env resourceID env.rangeBaseConfig)

/-! ## The expander -/

/-- The response types an `ExpanderResult` is tagged with here. -/
inductive ExpanderResponseType where
  | unset
  | ResponseTerraform
deriving DecidableEq, Repr

/-- An `ExpanderResult`; `Response` is `Response.Response`. -/
structure ExpanderResult where
  SourceDescription : String
  Err : Option Error
  Response : String
  ResponseType : ExpanderResponseType
  IsPrimaryResponse : Bool
deriving DecidableEq, Repr

/-- The result literal with only `SourceDescription` and `Err` set. -/
def errorResult (err : Error) : ExpanderResult :=
  { SourceDescription := "TerraformImportExpander", Err := some err, Response := "",
    ResponseType := .unset, IsPrimaryResponse := false }

/-- The result literal carrying Terraform text (lines 398-405, 475-482). -/
def terraformResult (terraform : String) : ExpanderResult :=
  { SourceDescription := "TerraformImportExpander", Err := none, Response := terraform,
    ResponseType := .ResponseTerraform, IsPrimaryResponse := true }

/-- The mutable part of a `TerraformImportExpander`.  `resolveCalls` is not a Go field: it
records, oldest first, the identifiers `getResourceTypeNameFromResourceID` was called
with. -/
structure TerraformImportExpander where
  tfProvider : Option TerraformProvider
  resolveCalls : List String

/-- The bookkeeping of one call of `getResourceTypeNameFromResourceID`. -/
def TerraformImportExpander.noteResolve (e : TerraformImportExpander) (resourceID : String) :
    TerraformImportExpander :=
  { e with resolveCalls := e.resolveCalls ++ [resourceID] }

/-- The method `ensureTfProviderInitialized` (lines 154-182). -/
def ensureTfProviderInitialized (env : Env) (e : TerraformImportExpander) :
    Option Error × TerraformImportExpander :=
  match e.tfProvider with
  | some _ => (none, e)
  | none =>
    match env.SetupProvider with
    | .error err => (some err, e)
    | .ok provider => (none, { e with tfProvider := some provider })

/-- The method `HasActions` (lines 246-259): the answer, the node and the expander
after the call. -/
def HasActions (env : Env) (e : TerraformImportExpander) (item : TreeNode) :
    Except Error Bool × TreeNode × TerraformImportExpander :=
  match getResourceTypeNameFromResourceID env item.ID with
  | .error err => (.error err, item, e.noteResolve item.ID)
  | .ok resourceTypeName =>
    if resourceTypeName = "" then (.ok false, item, e.noteResolve item.ID)
    else
      (.ok true, { item with Metadata := mapSet item.Metadata resourceTypeNameKey resourceTypeName },
        e.noteResolve item.ID)

/-- The method `printState` (lines 580-597). -/
def printState (env : Env) (state : Value) (resourceTypeName : String) (schema : Option Block) :
    Option (Except Error String) :=
  (printStateFile state resourceTypeName schema).map env.WriteTo

/-- The loop of `getTerraformFor` over the imported resources (lines 498-518). -/
def readResources (env : Env) (provider : TerraformProvider) (id : String) :
    String → List ImportedResource → Option (Except Error String)
  | result, [] => some (.ok result)
  | result, resource :: rest =>
    let newState := provider.ReadResource resource.TypeName resource.State
    let resourceSchema := provider.ResourceTypes.lookup resource.TypeName
    if newState.IsNull then some (.error ("Null state on read for " ++ env.Quote id))
    else
      match printState env newState resource.TypeName resourceSchema with
      | none => none
      | some (.error err) => some (.error err)
      | some (.ok hclString) => readResources env provider id (result ++ hclString ++ "\n") rest

/-- The method `getTerraformFor` (lines 485-521). -/
def getTerraformFor (env : Env) (e : TerraformImportExpander) (id resourceTypeName : String) :
    Option (Except Error String) :=
  match e.tfProvider with
  | none => none
  | some provider => readResources env provider id "" (provider.ImportResourceState resourceTypeName id)

/-- The function `defaultEndpointMatchTOResourceIDFunc` (lines 94-96). -/
def defaultEndpointMatchTOResourceIDFunc (env : Env) (matchingEndpoint : EndpointInfo)
    (matchValues : List (String × String)) : Except Error String :=
  env.BuildURL matchingEndpoint matchValues

/-- The override registered for `azurerm_storage_container` (lines 100-113). -/
def storageContainerResourceID (env : Env) (_matchingEndpoint : EndpointInfo)
    (matchValues : List (String × String)) : Except Error String :=
  match env.GetEndpointInfoFromURL "/{containerName}" "" with
  | .error err => .error err
  | .ok overriddenEndpoint =>
    match env.BuildURL overriddenEndpoint matchValues with
    | .error err => .error err
    | .ok path =>
      match matchValues.lookup "accountName" with
      | some accountName => .ok ("https://" ++ accountName ++ ".blob.core.windows.net" ++ path)
      | none => .error "accountName not found in match values"

/-- The table `resourceIDOverrides` (lines 99-114). -/
def resourceIDOverrides (env : Env) :
    List (String × (EndpointInfo → List (String × String) → Except Error String)) :=
  [("azurerm_storage_container", storageContainerResourceID env)]

/-- The second half of `getTerraformForNode` (lines 433-482), once the type name is
known. -/
def getTerraformForResolved (env : Env) (e : TerraformImportExpander) (item : TreeNode)
    (resourceTypeName : String) : Option ExpanderResult :=
  if resourceTypeName = "" then
    some (errorResult ("No ResourceTypeName for " ++ env.Quote item.ID))
  else
    match tfimportBaseConfig.lookup resourceTypeName with
    | none =>
      some (errorResult ("Endpoint not found for resourceTypeName " ++ env.Quote resourceTypeName))
    | some endpoint =>
      let endpointMatch := env.Match endpoint item.ID
      if !endpointMatch.IsMatch then some (errorResult "Failed to match resource type name")
      else
        let getResourceIDFunc :=
          ((resourceIDOverrides env).lookup resourceTypeName).getD
            (defaultEndpointMatchTOResourceIDFunc env)
        match getResourceIDFunc endpoint endpointMatch.Values with
        | .error err => some (errorResult err)
        | .ok id =>
          match getTerraformFor env e id resourceTypeName with
          | none => none
          | some (.error err) => some (errorResult err)
          | some (.ok terraform) => some (terraformResult terraform)

/-- The method `getTerraformForNode` (lines 408-483): the result, the node and the
expander after the call. -/
def getTerraformForNode (env : Env) (e : TerraformImportExpander) (item : TreeNode) :
    Option (ExpanderResult × TreeNode × TerraformImportExpander) :=
  match ensureTfProviderInitialized env e with
  | (some err, e1) => some (errorResult err, item, e1)
  | (none, e1) =>
    let cached := mapGet item.Metadata resourceTypeNameKey
    if cached = "" then
      match getResourceTypeNameFromResourceID env item.ID with
      | .error err => some (errorResult err, item, e1.noteResolve item.ID)
      | .ok resourceTypeName =>
        let item1 := { item with Metadata := mapSet item.Metadata resourceTypeNameKey resourceTypeName }
        (getTerraformForResolved env (e1.noteResolve item.ID) item1 resourceTypeName).map
          (fun result => (result, item1, e1.noteResolve item.ID))
    else
      (getTerraformForResolved env e1 item cached).map (fun result => (result, item, e1))

/-! ## The recursive crawl -/

/-- The type name whose ignore rules filter the children of `item` (lines 373-376). -/
def contextTypeName (item : TreeNode) (lastResourceTypeName : String) : String :=
  if mapGet item.Metadata resourceTypeNameKey = "" then lastResourceTypeName
  else mapGet item.Metadata resourceTypeNameKey

/-- The first inner loop (lines 362-368): whether a global suffix ends the identifier. -/
def ignoredBySuffix (childID : String) : List String → Bool
  | [] => false
  | suffix :: rest => if HasSuffix childID suffix then true else ignoredBySuffix childID rest

/-- The second inner loop (lines 378-384): whether an ignore template matches the
identifier. -/
def ignoredByEndpoint (env : Env) (childID : String) : List EndpointInfo → Bool
  | [] => false
  | ignoreEndpoint :: rest =>
    if (env.Match ignoreEndpoint childID).IsMatch then true else ignoredByEndpoint env childID rest

/-- The loop over `childItems` (lines 361-395); `recurse` is the recursive call of line
389 with the depth and the last type name already given. -/
def forChildItems (env : Env)
    (recurse : TerraformImportExpander → TreeNode → Option (ExpanderResult × TerraformImportExpander))
    (item : TreeNode) (lastResourceTypeName : String) :
    String → TerraformImportExpander → List TreeNode → Option (String × TerraformImportExpander)
  | terraform, e, [] => some (terraform, e)
  | terraform, e, childItem :: rest =>
    if ignoredBySuffix childItem.ID resourceIDIgnoreSuffices then
      forChildItems env recurse item lastResourceTypeName terraform e rest
    else
      let resourceTypeName := contextTypeName item lastResourceTypeName
      let ignoreRules := (endpointsToIgnore.lookup resourceTypeName).getD []
      if ignoredByEndpoint env childItem.ID ignoreRules then
        forChildItems env recurse item lastResourceTypeName terraform e rest
      else
        match recurse e childItem with
        | none => none
        | some (result, e1) =>
          match result.Err with
          | some err =>
            forChildItems env recurse item lastResourceTypeName (terraform ++ "\n#Error: " ++ err) e1 rest
          | none =>
            forChildItems env recurse item lastResourceTypeName (terraform ++ result.Response) e1 rest

/-- The text a node's own result puts at the head of the output (lines 339-345). -/
def ownFragment (result : ExpanderResult) : String :=
  match result.Err with
  | some err => "" ++ "\n#Error: " ++ err
  | none => "" ++ "\n" ++ result.Response

/-- The method `getTerraformForNodeRecursive` (lines 336-406).  The depth is never
negative: the caller passes 50 and a call is made with `remainingDepth-1` only when
`remainingDepth > 0`. -/
def getTerraformForNodeRecursive (env : Env) :
    Nat → TerraformImportExpander → TreeNode → String →
      Option (ExpanderResult × TerraformImportExpander)
  | remainingDepth, e, item, lastResourceTypeName =>
    match getTerraformForNode env e item with
    | none => none
    | some (result, item1, e1) =>
      let terraform := ownFragment result
      match remainingDepth with
      | 0 => some (terraformResult terraform, e1)
      | depth + 1 =>
        match env.ExpandItemAllowDefaultExpander item1 with
        | .error err =>
          some (terraformResult (terraform ++ "\n#Error expanding " ++ env.Quote item1.ID ++ ": " ++ err), e1)
        | .ok childItems =>
          match forChildItems env
              (fun e2 childItem => getTerraformForNodeRecursive env depth e2 childItem lastResourceTypeName)
              item1 lastResourceTypeName terraform e1 childItems with
          | none => none
          | some (terraform1, e2) => some (terraformResult terraform1, e2)

/-- The action identifiers (lines 121-124). -/
def tfimportActionGetTerraform : String := "GetTerraform"

/-- The identifier of the recursive action. -/
def tfimportActionGetTerraformRecursive : String := "GetTerraformRecursive"

/-- The method `ExecuteAction` (lines 310-335); `parent` is `item.Parent`. -/
def ExecuteAction (env : Env) (e : TerraformImportExpander) (item parent : TreeNode) :
    Option (ExpanderResult × TerraformImportExpander) :=
  let actionID := mapGet item.Metadata "ActionID"
  if actionID = tfimportActionGetTerraform then
    if mapGet item.Metadata resourceTypeNameKey = "" then
      some (errorResult "ResourceTypeName not set", e)
    else (getTerraformForNode env e parent).map (fun r => (r.1, r.2.2))
  else if actionID = tfimportActionGetTerraformRecursive then
    getTerraformForNodeRecursive env 50 e parent ""
  else if actionID = "" then
    some (errorResult ("ActionID metadata not set: " ++ env.Quote item.ID), e)
  else some (errorResult ("Unhandled ActionID: " ++ env.Quote actionID), e)

/-! ## The template registry, from the specification -/

/-- Modelled from the spec: a segment of an `EndpointTemplate`, "an ordered path pattern
of literal segments and uniquely-named placeholders"; the package `pkg/endpoints` is not
among the sources. -/
inductive EndpointSegment where
  | literal (text : List Char)
  | placeholder (name : List Char)
deriving DecidableEq, Repr

/-- Go `strings.Split(s, "/")`, on the characters of `s`. -/
def splitSlash : List Char → List (List Char)
  | [] => [[]]
  | c :: cs =>
    if c = '/' then [] :: splitSlash cs
    else
      match splitSlash cs with
      | [] => [[c]]
      | seg :: segs => (c :: seg) :: segs

/-- Modelled from the spec: a path segment written between braces is a placeholder of
that name, any other segment is a literal. -/
def parseSegment (seg : List Char) : EndpointSegment :=
  match seg with
  | [] => .literal []
  | c :: rest =>
    if c = Char.ofNat 123 ∧ rest.getLast? = some (Char.ofNat 125) then .placeholder rest.dropLast
    else .literal seg

/-- Modelled from the spec: the ordered segments of a template. -/
def templateSegments (templateURL : String) : List EndpointSegment :=
  (splitSlash templateURL.data).map parseSegment

/-- Modelled from the spec: `match` of an `EndpointTemplate` on the segments of an
identifier; a literal matches the equal segment, a placeholder captures the segment. -/
def matchSegments : List EndpointSegment → List (List Char) → Option (List (String × String))
  | [], [] => some []
  | [], _ :: _ => none
  | _ :: _, [] => none
  | .literal text :: ts, seg :: segs => if text = seg then matchSegments ts segs else none
  | .placeholder name :: ts, seg :: segs =>
    (matchSegments ts segs).map (fun values => (String.mk name, String.mk seg) :: values)

/-- Modelled from the spec: `match(id) -> (matched, values)` of an `EndpointTemplate`. -/
def specMatch (endpoint : EndpointInfo) (id : String) : MatchResult :=
  match matchSegments (templateSegments endpoint.TemplateURL) (splitSlash id.data) with
  | some values => { IsMatch := true, Values := values }
  | none => { IsMatch := false, Values := [] }

/-- Modelled from the spec: `build(values) -> id` on the segments of a template; a
placeholder without a value fails. -/
def buildSegments (values : List (String × String)) :
    List EndpointSegment → Except Error (List (List Char))
  | [] => .ok []
  | .literal text :: ts =>
    match buildSegments values ts with
    | .error err => .error err
    | .ok segs => .ok (text :: segs)
  | .placeholder name :: ts =>
    match values.lookup (String.mk name) with
    | none => .error ("no value for " ++ String.mk name)
    | some value =>
      match buildSegments values ts with
      | .error err => .error err
      | .ok segs => .ok (value.data :: segs)

/-- Modelled from the spec: `build(values) -> id` of an `EndpointTemplate`. -/
def specBuildURL (endpoint : EndpointInfo) (values : List (String × String)) :
    Except Error String :=
  match buildSegments values (templateSegments endpoint.TemplateURL) with
  | .error err => .error err
  | .ok segs => .ok (String.mk (List.intercalate ['/'] segs))

/-- Whether some identifier can match both segment lists: the lengths agree and no
position holds two different literals. -/
def compatibleSegments : List EndpointSegment → List EndpointSegment → Bool
  | [], [] => true
  | [], _ :: _ => false
  | _ :: _, [] => false
  | .literal a :: as, .literal b :: bs => decide (a = b) && compatibleSegments as bs
  | .literal _ :: as, .placeholder _ :: bs => compatibleSegments as bs
  | .placeholder _ :: as, _ :: bs => compatibleSegments as bs

/-! ## Notions of the specification -/

/-- The attribute names that are written first, in this order. -/
def fixedNames : List String := ["id", "name", "location", "resource_group_name"]

/-- An attribute name that ends in `_id` or `_ids`. -/
def endsInID (k : String) : Bool := HasSuffix k "_id" || HasSuffix k "_ids"

/-- A settable attribute of a block: one the schema has, and marked not computed, or
computed and optional. -/
def isSettable (attributes : List (String × Attribute)) (k : String) : Bool :=
  match attributes.lookup k with
  | some attributeSchema => !attributeSchema.Computed || attributeSchema.Optional
  | none => false

mutual
/-- The state has what `writeBlock` reads from it: it is an object with every attribute
of the schema, and every nested block type is there as an object that conforms, as a
collection whose objects conform, or as a value that is not iterated. -/
def conforms : Block → Value → Bool
  | .mk attributes blockTypes, state =>
    attributes.all (fun kv => (state.GetAttr kv.1).isSome) && conformsBlockTypes state blockTypes
/-- The nested block types of a schema, for `conforms`. -/
def conformsBlockTypes (state : Value) : List (String × Block) → Bool
  | [] => true
  | (blockName, blockSchema) :: rest =>
    (match state.GetAttr blockName with
     | none => false
     | some newState =>
       if newState.IsObjectType then conforms blockSchema newState
       else
         match newState with
         | .coll elems =>
           elems.all (fun value => !value.IsObjectType || conforms blockSchema value)
         | .null .collection => false
         | _ => true) &&
      conformsBlockTypes state rest
end

/-- The attribute names of a block in the order of the specification: the fixed names
that occur, then the names ending in `_id` or `_ids` in ascending order, then the others
in ascending order. -/
def specOrder (names : List String) : List String :=
  fixedNames.filter (fun k => decide (k ∈ names)) ++
    (sortStrings (names.filter (fun k => endsInID k)) ++
      sortStrings (names.filter (fun k => !endsInID k && !decide (k ∈ fixedNames))))

/-- The member `name` of a JSON object. -/
def JSON.member : JSON → String → Option JSON
  | .object members, name => members.lookup name
  | _, _ => none

/-- The value at a path of member names, `properties.storageProfile.osDisk.osType` for
one. -/
def JSON.path : JSON → List String → Option JSON
  | json, [] => some json
  | json, name :: rest =>
    match json.member name with
    | none => none
    | some sub => JSON.path sub rest

/-- The path of the OS type in the body of a virtual machine. -/
def osTypePath : List String := ["properties", "storageProfile", "osDisk", "osType"]

/-- Whether the child is kept by the ignore rules: its identifier ends with no global
suffix and matches no ignore template registered for the context type name. -/
def retained (env : Env) (context : String) (child : TreeNode) : Bool :=
  !(resourceIDIgnoreSuffices.any (fun suffix => HasSuffix child.ID suffix)) &&
    !(((endpointsToIgnore.lookup context).getD []).any
        (fun ignoreEndpoint => (env.Match ignoreEndpoint child.ID).IsMatch))

/-- The text a node contributes for itself: its serialized output on a line of its own,
or the annotation `#Error: ...` if its pipeline failed. -/
def inlineFragment (own : ExpanderResult) : String :=
  match own.Err with
  | some err => "\n#Error: " ++ err
  | none => "\n" ++ own.Response

/-- The crawl over a list of children that recurses into every one of them, in order,
and appends what each returns. -/
def appendRecursed
    (recurse : TerraformImportExpander → TreeNode → Option (ExpanderResult × TerraformImportExpander)) :
    String → TerraformImportExpander → List TreeNode → Option (String × TerraformImportExpander)
  | terraform, e, [] => some (terraform, e)
  | terraform, e, child :: rest =>
    match recurse e child with
    | none => none
    | some (result, e1) =>
      match result.Err with
      | some err => appendRecursed recurse (terraform ++ "\n#Error: " ++ err) e1 rest
      | none => appendRecursed recurse (terraform ++ result.Response) e1 rest

/-- The provider `p` never makes the serializer panic: whatever it imports and reads,
`getTerraformFor` returns. -/
def ProviderReturns (env : Env) (p : TerraformProvider) : Prop :=
  ∀ typeName id : String,
    (readResources env p id "" (p.ImportResourceState typeName id)).isSome = true

/-- The provider the expander holds, and the one it would set up, never make the
serializer panic. -/
def ExpanderReturns (env : Env) (e : TerraformImportExpander) : Prop :=
  ∀ p : TerraformProvider,
    (e.tfProvider = some p ∨ env.SetupProvider = .ok p) → ProviderReturns env p

/-- The environment `env` with another tree model in the place of
`ExpandItemAllowDefaultExpander`. -/
def withTreeModel (env : Env) (expand : TreeNode → Except Error (List TreeNode)) : Env :=
  { env with ExpandItemAllowDefaultExpander := expand }

/-- The tree model `expand` answers as the one of `env` on `item` and on the nodes less
than `depth` levels below it: on the node as its pipeline leaves it, and so on for each of
its children one level less deep.  Nothing is asked about nodes `depth` levels below. -/
def AgreeToDepth (env : Env) (expand : TreeNode → Except Error (List TreeNode)) :
    Nat → TreeNode → Prop
  | 0, _ => True
  | depth + 1, item =>
    ∀ e own item1 e1, getTerraformForNode env e item = some (own, item1, e1) →
      expand item1 = env.ExpandItemAllowDefaultExpander item1 ∧
      ∀ childItems, env.ExpandItemAllowDefaultExpander item1 = .ok childItems →
        ∀ child ∈ childItems, AgreeToDepth env expand depth child

/-- One level of the crawl: the node itself, then `recurse` on each retained child. -/
def crawlLevel (env : Env)
    (recurse : TerraformImportExpander → TreeNode → Option (ExpanderResult × TerraformImportExpander))
    (e : TerraformImportExpander) (item : TreeNode) (lastResourceTypeName : String) :
    Option (ExpanderResult × TerraformImportExpander) :=
  match getTerraformForNode env e item with
  | none => none
  | some (own, item1, e1) =>
    match env.ExpandItemAllowDefaultExpander item1 with
    | .error err =>
      some (terraformResult
        (inlineFragment own ++ "\n#Error expanding " ++ env.Quote item1.ID ++ ": " ++ err), e1)
    | .ok childItems =>
      (appendRecursed recurse (inlineFragment own) e1
        (childItems.filter (retained env (contextTypeName item1 lastResourceTypeName)))).map
        (fun p => (terraformResult p.1, p.2))

/-! ## Sample inputs -/

/-- A schema with the attributes `zebra`, `id`, `name`, `custom_id`, `location`, all
settable, ranged over in that order. -/
def sampleBlock : Block :=
  .mk [("zebra", ⟨false, false⟩), ("id", ⟨false, false⟩), ("name", ⟨false, false⟩),
       ("custom_id", ⟨false, true⟩), ("location", ⟨false, false⟩)] []

/-- A state of `sampleBlock`. -/
def sampleState : Value :=
  .object [("zebra", .str "z"), ("id", .str "i"), ("name", .str "n"),
           ("custom_id", .str "c"), ("location", .str "l")]

/-- What `writeBlock` makes of `sampleBlock` and `sampleState`. -/
def sampleBody : List HclItem :=
  [.attribute "id" (.str "i"), .attribute "name" (.str "n"), .attribute "location" (.str "l"),
   .attribute "custom_id" (.str "c"), .attribute "zebra" (.str "z")]

/-- A schema with a read-only attribute (`id`: computed, not optional), a plain one and a
computed optional one. -/
def computedBlock : Block :=
  .mk [("tags", ⟨true, true⟩), ("id", ⟨true, false⟩), ("sku", ⟨false, false⟩)] []

/-- A state of `computedBlock`. -/
def computedState : Value :=
  .object [("id", .str "i"), ("sku", .str "s"), ("tags", .str "t")]

/-- What `writeBlock` makes of `computedBlock` and `computedState`. -/
def computedBody : List HclItem :=
  [.attribute "sku" (.str "s"), .attribute "tags" (.str "t")]

/-- A schema with two nested block types, `a` ranged over before `b`. -/
def twoBlocksAB : Block := .mk [] [("a", .mk [] []), ("b", .mk [] [])]

/-- The schema of `twoBlocksAB` with the same map ranged over in the other order. -/
def twoBlocksBA : Block := .mk [] [("b", .mk [] []), ("a", .mk [] [])]

/-- A state of the two-block schema: both blocks present, one object each. -/
def twoBlocksState : Value := .object [("a", .object []), ("b", .object [])]

/-- The identifier of a virtual machine. -/
def vmID : String :=
  "/subscriptions/s/resourceGroups/g/providers/Microsoft.Compute/virtualMachines/v"

/-- The identifier of a storage container. -/
def containerID : String :=
  "/subscriptions/s/resourceGroups/g/providers/Microsoft.Storage/storageAccounts/a/blobServices/default/containers/c"

/-- A provider that imports one resource per identifier, reads a container state for a
storage container and a null state for any other type. -/
def sampleProvider : TerraformProvider :=
  { ResourceTypes :=
      [("azurerm_storage_container",
        .mk [("id", ⟨true, false⟩), ("name", ⟨false, false⟩),
             ("storage_account_name", ⟨false, false⟩)] [])],
    ImportResourceState := fun typeName id => [{ TypeName := typeName, State := .str id }],
    ReadResource := fun typeName priorState =>
      if typeName = "azurerm_storage_container" then
        .object [("id", priorState), ("name", .str "my-c"), ("storage_account_name", .str "a")]
      else .null .primitive }

/-- A tree: the container has the children `/folder`, a diagnostic-settings node and a
blob; `/folder` has a blob below the container as its child; that blob cannot be
expanded. -/
def sampleChildren (item : TreeNode) : Except Error (List TreeNode) :=
  if item.ID = containerID then
    .ok [{ ID := "/folder", Metadata := [] },
         { ID := containerID ++ "/<diagsettings>", Metadata := [] },
         { ID := containerID ++ "/blob1", Metadata := [] }]
  else if item.ID = "/folder" then .ok [{ ID := containerID ++ "/blob2", Metadata := [] }]
  else if item.ID = containerID ++ "/blob2" then .error "cannot expand"
  else .ok []

/-- A rendering of a file: each top-level block by its type name, its labels and the
names of its attributes. -/
def sampleWriteTo (file : List HclItem) : Except Error String :=
  .ok (String.join (file.map (fun it =>
    match it with
    | .attribute name _ => name
    | .block typeName labels body =>
      typeName ++ " " ++ String.intercalate " " labels ++ " [" ++
        String.intercalate "," (attributeNames body) ++ "]")))

/-- An environment on the template registry of the specification: the probe answers
with a body that has no `osType`. -/
def sampleEnv : Env :=
  { Match := specMatch,
    BuildURL := specBuildURL,
    GetEndpointInfoFromURL := fun templateURL apiVersion =>
      .ok (MustGetEndpointInfoFromURL templateURL apiVersion),
    DoRequest := fun _ _ => .ok "body",
    Unmarshal := fun _ =>
      .ok [("properties", .object [("storageProfile", .object [("osDisk", .object [])])])],
    rangeBaseConfig := tfimportBaseConfig,
    SetupProvider := .ok sampleProvider,
    ExpandItemAllowDefaultExpander := sampleChildren,
    Quote := fun text => "<" ++ text ++ ">",
    WriteTo := sampleWriteTo }

/-- The environment `sampleEnv` with a probe body whose `osType` is `osType`. -/
def sampleEnvWithOS (osType : JSON) : Env :=
  { sampleEnv with
    Unmarshal := fun _ =>
      .ok [("properties",
        .object [("storageProfile", .object [("osDisk", .object [("osType", osType)])])])] }

/-- An expander before its first call. -/
def freshExpander : TerraformImportExpander := { tfProvider := none, resolveCalls := [] }

/-- The container node before anything has run on it. -/
def sampleRoot : TreeNode := { ID := containerID, Metadata := [] }

/-- The container node with its type name cached by `HasActions`. -/
def sampleRootCached : TreeNode :=
  { ID := containerID, Metadata := [(resourceTypeNameKey, "azurerm_storage_container")] }

/-- The action node "Get Terraform (recursive)" of the container (lines 288-301). -/
def sampleAction : TreeNode :=
  { ID := containerID ++ "?" ++ "GetTerraformRecursive",
    Metadata := [("ActionID", "GetTerraformRecursive"),
                 (resourceTypeNameKey, "azurerm_storage_container")] }

/-- The blob that the tree model lists below `/folder`. -/
def sampleBlob : TreeNode := { ID := containerID ++ "/blob2", Metadata := [] }

/-- The text of the crawl of the sample tree. -/
def sampleCrawlText : String :=
  "\nresource azurerm_storage_container my_c [name,storage_account_name]\n" ++
  "\n#Error: No ResourceTypeName for </folder>" ++
  "\n#Error: No ResourceTypeName for </subscriptions/s/resourceGroups/g/providers/Microsoft.Storage/storageAccounts/a/blobServices/default/containers/c/blob2>" ++
  "\n#Error expanding </subscriptions/s/resourceGroups/g/providers/Microsoft.Storage/storageAccounts/a/blobServices/default/containers/c/blob2>: cannot expand"

/-- The expander after the crawl of the sample tree from `sampleRoot`. -/
def sampleExpanderAfter : TerraformImportExpander :=
  { tfProvider := some sampleProvider,
    resolveCalls := [containerID, "/folder", containerID ++ "/blob2"] }

/-- The template registered for `azurerm_storage_container` (line 38). -/
def containerEndpoint : EndpointInfo :=
  MustGetEndpointInfoFromURL "/subscriptions/{subscriptionName}/resourceGroups/{resourceGroupName}/providers/Microsoft.Storage/storageAccounts/{accountName}/blobServices/default/containers/{containerName}" ""

/-- The identifier of the container `C` of the storage account `A`. -/
def containerOfAccount : String :=
  "/subscriptions/s/resourceGroups/g/providers/Microsoft.Storage/storageAccounts/A/blobServices/default/containers/C"

/-- A provider whose import returns two handles: the read of the first gives a container
state, the read of the second a null state. -/
def nullSecondProvider : TerraformProvider :=
  { ResourceTypes := sampleProvider.ResourceTypes,
    ImportResourceState := fun typeName id =>
      [{ TypeName := typeName, State := .str id },
       { TypeName := typeName, State := .null .primitive }],
    ReadResource := fun _ priorState =>
      if priorState.IsNull then .null (.object [])
      else .object [("id", priorState), ("name", .str "my-c"), ("storage_account_name", .str "a")] }

/-- An expander that holds `nullSecondProvider`. -/
def nullSecondExpander : TerraformImportExpander :=
  { tfProvider := some nullSecondProvider, resolveCalls := [] }

/-- A state with the name `my-c`, and its schema. -/
def namedState : Value :=
  .object [("id", .str "x"), ("name", .str "my-c"), ("storage_account_name", .str "a")]

/-- The schema of `namedState`. -/
def namedBlock : Block :=
  .mk [("id", ⟨true, false⟩), ("name", ⟨false, false⟩),
       ("storage_account_name", ⟨false, false⟩)] []

/-- The tree model of `sampleChildren`, except that the blob below `/folder` has a child
of its own. -/
def deepChildren (item : TreeNode) : Except Error (List TreeNode) :=
  if item.ID = containerID ++ "/blob2" then .ok [{ ID := "/deeper", Metadata := [] }]
  else sampleChildren item

/-- The identifier of a resource group. -/
def groupID : String := "/subscriptions/s/resourceGroups/g"

/-- The identifier of the public IP address `name` of the resource group `groupID`. -/
def publicIPID (name : String) : String :=
  groupID ++ "/providers/Microsoft.Network/publicIPAddresses/" ++ name

/-- A provider that imports one resource per identifier, except for the public IP address
`gone`, for which it imports none (what a provider answers for a failed import, next to
the `Diagnostics` that lines 495-498 do not read); the state it reads has the name `n`,
except for the public IP address `unnamed`, where the attribute `name` is null. -/
def unnamedProvider : TerraformProvider :=
  { ResourceTypes :=
      [("azurerm_resource_group",
        .mk [("id", ⟨true, false⟩), ("name", ⟨false, false⟩), ("location", ⟨false, false⟩)] []),
       ("azurerm_public_ip",
        .mk [("id", ⟨true, false⟩), ("name", ⟨false, false⟩), ("location", ⟨false, false⟩)] [])],
    ImportResourceState := fun typeName id =>
      if id = publicIPID "gone" then [] else [{ TypeName := typeName, State := .str id }],
    ReadResource := fun _ priorState =>
      match priorState with
      | .str id =>
        .object [("id", .str id),
                 ("name", if id = publicIPID "unnamed" then .null .primitive else .str "n"),
                 ("location", .str "westeurope")]
      | _ => .null .primitive }

/-- A tree: the resource group has the public IP addresses `first`, `unnamed` and `later`
as its children, and they have none. -/
def unnamedChildren (item : TreeNode) : Except Error (List TreeNode) :=
  if item.ID = groupID then
    .ok [{ ID := publicIPID "first", Metadata := [] },
         { ID := publicIPID "unnamed", Metadata := [] },
         { ID := publicIPID "later", Metadata := [] }]
  else .ok []

/-- The environment `sampleEnv` with the provider `unnamedProvider` and the tree
`unnamedChildren`. -/
def unnamedEnv : Env :=
  { sampleEnv with
    SetupProvider := .ok unnamedProvider,
    ExpandItemAllowDefaultExpander := unnamedChildren }

/-- The node of the resource group. -/
def groupNode : TreeNode := { ID := groupID, Metadata := [] }

/-! ## The byte order of strings -/

theorem char_toNat_inj {a b : Char} (h : a.toNat = b.toNat) : a = b := by
  apply Char.ext
  apply UInt32.ext
  exact h

theorem bytesLess_irrefl (a : List Char) : bytesLess a a = false := by
  induction a with
  | nil => rfl
  | cons x xs ih => simp [bytesLess, ih]

theorem bytesLess_cotrans : ∀ (c a b : List Char), bytesLess c a = true →
    bytesLess c b = true ∨ bytesLess b a = true
  | _, [], _, h => by simp [bytesLess] at h
  | [], _ :: _, [], _ => by simp [bytesLess]
  | [], _ :: _, _ :: _, _ => by simp [bytesLess]
  | _ :: _, _ :: _, [], _ => by simp [bytesLess]
  | x :: xs, y :: ys, z :: zs, h => by
    simp only [bytesLess, Bool.or_eq_true, Bool.and_eq_true, decide_eq_true_eq] at h ⊢
    rcases h with h | ⟨h1, h2⟩
    · rcases Nat.lt_trichotomy x.toNat z.toNat with h3 | h3 | h3
      · exact Or.inl (Or.inl h3)
      · exact Or.inr (Or.inl (h3 ▸ h))
      · exact Or.inr (Or.inl (by omega))
    · rcases Nat.lt_trichotomy x.toNat z.toNat with h3 | h3 | h3
      · exact Or.inl (Or.inl h3)
      · rcases bytesLess_cotrans xs ys zs h2 with h4 | h4
        · exact Or.inl (Or.inr ⟨h3, h4⟩)
        · exact Or.inr (Or.inr ⟨by omega, h4⟩)
      · exact Or.inr (Or.inl (by omega))

theorem bytesLess_asymm : ∀ (a b : List Char), bytesLess a b = true → bytesLess b a = false
  | _, [], h => by simp [bytesLess] at h
  | [], _ :: _, _ => by simp [bytesLess]
  | x :: xs, y :: ys, h => by
    simp only [bytesLess, Bool.or_eq_true, Bool.and_eq_true, decide_eq_true_eq] at h
    simp only [bytesLess, Bool.or_eq_false_iff, Bool.and_eq_false_iff, decide_eq_false_iff_not]
    rcases h with h | ⟨h1, h2⟩
    · exact ⟨by omega, Or.inl (by omega)⟩
    · exact ⟨by omega, Or.inr (bytesLess_asymm xs ys h2)⟩

theorem bytesLess_connex : ∀ (a b : List Char), bytesLess a b = false → bytesLess b a = false →
    a = b
  | [], [], _, _ => rfl
  | [], _ :: _, h, _ => by simp [bytesLess] at h
  | _ :: _, [], _, h => by simp [bytesLess] at h
  | x :: xs, y :: ys, h, h2 => by
    simp only [bytesLess, Bool.or_eq_false_iff, Bool.and_eq_false_iff,
      decide_eq_false_iff_not] at h h2
    have hxy : x.toNat = y.toNat := by omega
    have hc := char_toNat_inj hxy
    subst hc
    rcases h.2 with h1 | h1
    · exact absurd rfl h1
    · rcases h2.2 with h3 | h3
      · exact absurd rfl h3
      · rw [bytesLess_connex xs ys h1 h3]

theorem stringLE_total (a b : String) : stringLE a b = true ∨ stringLE b a = true := by
  unfold stringLE
  cases h : bytesLess b.data a.data
  · simp
  · simp [bytesLess_asymm _ _ h]

theorem stringLE_trans {a b c : String} (h1 : stringLE a b = true) (h2 : stringLE b c = true) :
    stringLE a c = true := by
  unfold stringLE at *
  cases h : bytesLess c.data a.data
  · rfl
  · rcases bytesLess_cotrans _ _ b.data h with h3 | h3
    · simp [h3] at h2
    · simp [h3] at h1

theorem stringLE_antisymm {a b : String} (h1 : stringLE a b = true) (h2 : stringLE b a = true) :
    a = b := by
  unfold stringLE at *
  simp only [Bool.not_eq_true_eq_eq_false, Bool.not_eq_eq_eq_not, Bool.not_true] at h1 h2
  exact String.ext (bytesLess_connex _ _ h2 h1)

theorem stringLE_isTotal : IsTotal String (fun a b => stringLE a b = true) :=
  ⟨stringLE_total⟩

theorem stringLE_isTrans : IsTrans String (fun a b => stringLE a b = true) :=
  ⟨fun _ _ _ h1 h2 => stringLE_trans h1 h2⟩

theorem stringLE_isAntisymm : IsAntisymm String (fun a b => stringLE a b = true) :=
  ⟨fun _ _ h1 h2 => stringLE_antisymm h1 h2⟩

theorem sortStrings_sorted (l : List String) :
    (sortStrings l).Sorted (fun a b => stringLE a b = true) := by
  haveI := stringLE_isTotal
  haveI := stringLE_isTrans
  exact List.sorted_insertionSort _ l

theorem sortStrings_perm (l : List String) : (sortStrings l).Perm l :=
  List.perm_insertionSort _ l

theorem mem_sortStrings {l : List String} {k : String} : k ∈ sortStrings l ↔ k ∈ l :=
  (sortStrings_perm l).mem_iff

/-- A strictly ascending list is what `sort.Strings` makes of any arrangement of it. -/
theorem sortStrings_eq_of_perm {l s : List String} (hp : s.Perm l)
    (hs : s.Sorted (fun a b => stringLE a b = true)) : sortStrings l = s := by
  haveI := stringLE_isAntisymm
  exact List.eq_of_perm_of_sorted ((sortStrings_perm l).trans hp.symm) (sortStrings_sorted l) hs

theorem stringLess_of_le_of_ne {a b : String} (h : stringLE a b = true) (hne : a ≠ b) :
    stringLess a b = true := by
  unfold stringLE at h
  unfold stringLess
  cases h2 : bytesLess a.data b.data
  · simp only [Bool.not_eq_true_eq_eq_false, Bool.not_eq_eq_eq_not, Bool.not_true] at h
    exact absurd (String.ext (bytesLess_connex _ _ h2 h)) hne
  · rfl

/-! ## The order of the attributes (`writeBlock`) -/

theorem keyLetter_fixed {k : String} (h : k ∈ fixedNames) :
    ∃ c, (keyLetter k).data = [c] ∧ c.toNat < 101 := by
  simp only [fixedNames, List.mem_cons, List.mem_singleton, List.not_mem_nil, or_false] at h
  rcases h with h | h | h | h <;> subst h
  · exact ⟨'a', by decide, by decide⟩
  · exact ⟨'b', by decide, by decide⟩
  · exact ⟨'c', by decide, by decide⟩
  · exact ⟨'d', by decide, by decide⟩

theorem endsInID_fixed {k : String} (h : k ∈ fixedNames) : endsInID k = false := by
  simp only [fixedNames, List.mem_cons, List.mem_singleton, List.not_mem_nil, or_false] at h
  rcases h with h | h | h | h <;> subst h <;> decide

theorem keyLetter_of_not_fixed {k : String} (h : k ∉ fixedNames) :
    keyLetter k = if endsInID k then "e" else "z" := by
  simp only [fixedNames, List.mem_cons, List.mem_singleton, List.not_mem_nil, or_false,
    not_or] at h
  obtain ⟨h1, h2, h3, h4⟩ := h
  simp [keyLetter, h1, h2, h3, h4, endsInID]

theorem keyLetter_eq_e_iff (k : String) : keyLetter k = "e" ↔ endsInID k = true := by
  by_cases h : k ∈ fixedNames
  · rw [endsInID_fixed h]
    obtain ⟨c, hc, hlt⟩ := keyLetter_fixed h
    constructor
    · intro he
      rw [he] at hc
      have : c = 'e' := by simpa using hc.symm
      subst this
      exact absurd hlt (by decide)
    · intro hf
      exact absurd hf (by decide)
  · rw [keyLetter_of_not_fixed h]
    cases endsInID k <;> simp

theorem keyLetter_eq_z_iff (k : String) :
    keyLetter k = "z" ↔ k ∉ fixedNames ∧ endsInID k = false := by
  by_cases h : k ∈ fixedNames
  · obtain ⟨c, hc, hlt⟩ := keyLetter_fixed h
    constructor
    · intro he
      rw [he] at hc
      have : c = 'z' := by simpa using hc.symm
      subst this
      exact absurd hlt (by decide)
    · intro hf
      exact absurd h hf.1
  · rw [keyLetter_of_not_fixed h]
    cases endsInID k <;> simp [h]

theorem keyLetter_data (k : String) : ∃ c, (keyLetter k).data = [c] := by
  by_cases h : k ∈ fixedNames
  · obtain ⟨c, hc, _⟩ := keyLetter_fixed h
    exact ⟨c, hc⟩
  · rw [keyLetter_of_not_fixed h]
    cases endsInID k
    · exact ⟨'z', rfl⟩
    · exact ⟨'e', rfl⟩

theorem prefixed_data (k : String) : (keyLetter k ++ k).data = (keyLetter k).data ++ k.data :=
  String.data_append _ _

theorem dropFirst_prefixed (k : String) : dropFirst (keyLetter k ++ k) = k := by
  obtain ⟨c, hc⟩ := keyLetter_data k
  simp [dropFirst, prefixed_data, hc]

theorem stringLE_prefixed_of_lt {k1 k2 : String} {c1 c2 : Char}
    (h1 : (keyLetter k1).data = [c1]) (h2 : (keyLetter k2).data = [c2])
    (h : c1.toNat < c2.toNat) :
    stringLE (keyLetter k1 ++ k1) (keyLetter k2 ++ k2) = true := by
  simp only [stringLE, prefixed_data, h1, h2, List.singleton_append, bytesLess,
    Bool.not_eq_true_eq_eq_false, Bool.not_eq_eq_eq_not, Bool.not_true, Bool.or_eq_false_iff,
    Bool.and_eq_false_iff, decide_eq_false_iff_not]
  exact ⟨by omega, Or.inl (by omega)⟩

theorem stringLE_prefixed_of_eq {k1 k2 : String} (h : keyLetter k1 = keyLetter k2) :
    stringLE (keyLetter k1 ++ k1) (keyLetter k2 ++ k2) = stringLE k1 k2 := by
  obtain ⟨c, hc⟩ := keyLetter_data k1
  have hc2 : (keyLetter k2).data = [c] := h ▸ hc
  simp [stringLE, prefixed_data, hc, hc2, bytesLess]

theorem specOrder_mem {names : List String} {k : String} : k ∈ specOrder names ↔ k ∈ names := by
  simp only [specOrder, List.mem_append, List.mem_filter, mem_sortStrings, decide_eq_true_eq,
    Bool.and_eq_true, Bool.not_eq_true_eq_eq_false, Bool.not_eq_eq_eq_not, Bool.not_true,
    decide_eq_false_iff_not]
  by_cases hf : k ∈ fixedNames <;> cases he : endsInID k <;> simp [hf]

theorem fixedNames_nodup : fixedNames.Nodup := by decide

theorem specOrder_nodup {names : List String} (h : names.Nodup) : (specOrder names).Nodup := by
  unfold specOrder
  refine List.nodup_append.2 ⟨fixedNames_nodup.filter _, List.nodup_append.2 ⟨?_, ?_, ?_⟩, ?_⟩
  · exact (sortStrings_perm _).nodup_iff.2 (h.filter _)
  · exact (sortStrings_perm _).nodup_iff.2 (h.filter _)
  · intro k h1 h2
    simp only [mem_sortStrings, List.mem_filter, Bool.and_eq_true, Bool.not_eq_true_eq_eq_false,
      Bool.not_eq_eq_eq_not, Bool.not_true] at h1 h2
    rw [h1.2] at h2
    exact absurd h2.2.1 (by decide)
  · intro k h1 h2
    simp only [List.mem_append, mem_sortStrings, List.mem_filter, Bool.and_eq_true,
      Bool.not_eq_true_eq_eq_false, Bool.not_eq_eq_eq_not, Bool.not_true, decide_eq_true_eq,
      decide_eq_false_iff_not] at h1 h2
    rcases h2 with h2 | h2
    · rw [endsInID_fixed h1.1] at h2
      exact absurd h2.2 (by decide)
    · exact h2.2.2 h1.1

theorem specOrder_perm {names : List String} (h : names.Nodup) : (specOrder names).Perm names :=
  (List.perm_ext_iff_of_nodup (specOrder_nodup h) h).2 (fun _ => specOrder_mem)

theorem fixedNames_prefixed_sorted :
    (fixedNames.map (fun k => keyLetter k ++ k)).Sorted (fun a b => stringLE a b = true) := by
  decide

theorem specOrder_prefixed_sorted (names : List String) :
    ((specOrder names).map (fun k => keyLetter k ++ k)).Sorted
      (fun a b => stringLE a b = true) := by
  unfold specOrder
  rw [List.map_append, List.map_append]
  refine List.pairwise_append.2 ⟨?_, List.pairwise_append.2 ⟨?_, ?_, ?_⟩, ?_⟩
  · exact List.Pairwise.sublist ((List.filter_sublist _).map _) fixedNames_prefixed_sorted
  · refine List.pairwise_map.2 ?_
    refine List.Pairwise.imp_of_mem ?_ (sortStrings_sorted _)
    intro a b ha hb hab
    simp only [mem_sortStrings, List.mem_filter] at ha hb
    rw [stringLE_prefixed_of_eq]
    · exact hab
    · rw [(keyLetter_eq_e_iff a).2 ha.2, (keyLetter_eq_e_iff b).2 hb.2]
  · refine List.pairwise_map.2 ?_
    refine List.Pairwise.imp_of_mem ?_ (sortStrings_sorted _)
    intro a b ha hb hab
    simp only [mem_sortStrings, List.mem_filter, Bool.and_eq_true, Bool.not_eq_true_eq_eq_false,
      Bool.not_eq_eq_eq_not, Bool.not_true, decide_eq_false_iff_not] at ha hb
    rw [stringLE_prefixed_of_eq]
    · exact hab
    · rw [(keyLetter_eq_z_iff a).2 ⟨ha.2.2, ha.2.1⟩, (keyLetter_eq_z_iff b).2 ⟨hb.2.2, hb.2.1⟩]
  · intro x hx y hy
    simp only [List.mem_map, mem_sortStrings, List.mem_filter, Bool.and_eq_true,
      Bool.not_eq_true_eq_eq_false, Bool.not_eq_eq_eq_not, Bool.not_true,
      decide_eq_false_iff_not] at hx hy
    obtain ⟨a, ha, rfl⟩ := hx
    obtain ⟨b, hb, rfl⟩ := hy
    have h1 : (keyLetter a).data = ['e'] := by rw [(keyLetter_eq_e_iff a).2 ha.2]
    have h2 : (keyLetter b).data = ['z'] := by
      rw [(keyLetter_eq_z_iff b).2 ⟨hb.2.2, hb.2.1⟩]
    exact stringLE_prefixed_of_lt h1 h2 (by decide)
  · intro x hx y hy
    simp only [List.mem_map, List.mem_append, mem_sortStrings, List.mem_filter, Bool.and_eq_true,
      Bool.not_eq_true_eq_eq_false, Bool.not_eq_eq_eq_not, Bool.not_true, decide_eq_true_eq,
      decide_eq_false_iff_not] at hx hy
    obtain ⟨a, ha, rfl⟩ := hx
    obtain ⟨c, hc, hlt⟩ := keyLetter_fixed ha.1
    rcases hy with ⟨b, hb, rfl⟩ | ⟨b, hb, rfl⟩
    · have h2 : (keyLetter b).data = ['e'] := by rw [(keyLetter_eq_e_iff b).2 hb.2]
      exact stringLE_prefixed_of_lt hc h2 (by simpa using hlt)
    · have h2 : (keyLetter b).data = ['z'] := by
        rw [(keyLetter_eq_z_iff b).2 ⟨hb.2.2, hb.2.1⟩]
      exact stringLE_prefixed_of_lt hc h2 (lt_trans hlt (by decide))

/-- The sorted slice `keys` of `writeBlock` is the order of the specification, each name
behind its letter. -/
theorem sortStrings_prefixedKeys {attributes : List (String × Attribute)}
    (h : (attributes.map Prod.fst).Nodup) :
    sortStrings (prefixedKeys attributes) =
      (specOrder (attributes.map Prod.fst)).map (fun k => keyLetter k ++ k) := by
  apply sortStrings_eq_of_perm _ (specOrder_prefixed_sorted _)
  have hp := (specOrder_perm h).map (fun k => keyLetter k ++ k)
  simpa [prefixedKeys, List.map_map, Function.comp] using hp

theorem attributeNames_append (b1 b2 : List HclItem) :
    attributeNames (b1 ++ b2) = attributeNames b1 ++ attributeNames b2 := by
  simp [attributeNames, List.filterMap_append]

theorem SetAttributeValue_names {body : List HclItem} {name : String} (val : Value)
    (h : name ∉ attributeNames body) :
    attributeNames (SetAttributeValue body name val) = attributeNames body ++ [name] := by
  have hany : body.any (HclItem.isAttributeNamed name) = false := by
    rw [List.any_eq_false]
    intro it hit hnamed
    apply h
    rcases it with ⟨n, v⟩ | ⟨t, l, b⟩
    · simp only [HclItem.isAttributeNamed, beq_iff_eq] at hnamed
      subst hnamed
      exact List.mem_filterMap.2 ⟨_, hit, rfl⟩
    · simp [HclItem.isAttributeNamed] at hnamed
  simp [SetAttributeValue, hany, attributeNames_append, attributeNames, HclItem.attributeName?]

theorem writeAttributes_names {attributes : List (String × Attribute)} {state : Value} :
    ∀ (ks : List String) (body out : List HclItem),
      (ks.map dropFirst).Nodup → (∀ k ∈ ks, dropFirst k ∉ attributeNames body) →
      writeAttributes attributes state body ks = some out →
      attributeNames out =
        attributeNames body ++ (ks.map dropFirst).filter (fun k => isSettable attributes k)
  | [], body, out, _, _, h => by
    simp only [writeAttributes, Option.some.injEq] at h
    simp [← h]
  | k :: ks, body, out, hnd, hfresh, h => by
    rw [List.map_cons, List.nodup_cons] at hnd
    have hk : dropFirst k ∉ attributeNames body := hfresh k (List.mem_cons_self _ _)
    have hks : ∀ k2 ∈ ks, dropFirst k2 ∉ attributeNames body :=
      fun k2 h2 => hfresh k2 (List.mem_cons_of_mem _ h2)
    simp only [writeAttributes] at h
    cases hl : attributes.lookup (dropFirst k) with
    | none => simp [hl] at h
    | some a =>
      simp only [hl] at h
      by_cases hs : (!a.Computed || a.Optional) = true
      · simp only [hs, if_true] at h
        cases hg : state.GetAttr (dropFirst k) with
        | none => simp [hg] at h
        | some v =>
          simp only [hg] at h
          have ih := writeAttributes_names ks _ out hnd.2 (by
            intro k2 h2
            rw [SetAttributeValue_names v hk, List.mem_append, List.mem_singleton]
            rintro (h3 | h3)
            · exact hks k2 h2 h3
            · exact hnd.1 (h3 ▸ List.mem_map_of_mem _ h2)) h
          have hset : isSettable attributes (dropFirst k) = true := by simp [isSettable, hl, hs]
          rw [ih, SetAttributeValue_names v hk, List.map_cons, List.filter_cons_of_pos hset]
          simp
      · simp only [hs] at h
        have ih := writeAttributes_names ks body out hnd.2 hks h
        have hset : ¬ (isSettable attributes (dropFirst k) = true) := by simp [isSettable, hl, hs]
        rw [ih, List.map_cons, List.filter_cons_of_neg hset]

theorem writeElements_names {blockName : String} {inner : Value → Option (List HclItem)} :
    ∀ (elems : List Value) (body out : List HclItem),
      writeElements blockName inner body elems = some out →
      attributeNames out = attributeNames body
  | [], body, out, h => by
    simp only [writeElements, Option.some.injEq] at h
    rw [h]
  | value :: rest, body, out, h => by
    simp only [writeElements] at h
    split at h
    · cases hi : inner value with
      | none => simp [hi] at h
      | some nb =>
        simp only [hi] at h
        rw [writeElements_names rest _ out h, attributeNames_append]
        simp [attributeNames, HclItem.attributeName?]
    · exact writeElements_names rest body out h

theorem writeBlockTypes_names {state : Value} :
    ∀ (blockTypes : List (String × Block)) (body out : List HclItem),
      writeBlockTypes state body blockTypes = some out →
      attributeNames out = attributeNames body
  | [], body, out, h => by
    simp only [writeBlockTypes, Option.some.injEq] at h
    rw [h]
  | (blockName, blockSchema) :: rest, body, out, h => by
    simp only [writeBlockTypes] at h
    cases hg : state.GetAttr blockName with
    | none => simp [hg] at h
    | some newState =>
      simp only [hg] at h
      split at h
      · cases hw : writeBlock [] blockSchema newState with
        | none => simp [hw] at h
        | some nb =>
          simp only [hw] at h
          rw [writeBlockTypes_names rest _ out h, attributeNames_append]
          simp [attributeNames, HclItem.attributeName?]
      · split at h
        · rename_i elems hno
          cases hw : writeElements blockName (fun value => writeBlock [] blockSchema value) body
              elems with
          | none => simp [hw] at h
          | some body1 =>
            simp only [hw] at h
            rw [writeBlockTypes_names rest _ out h, writeElements_names _ _ _ hw]
        · simp at h
        · exact writeBlockTypes_names rest body out h

/-- The attributes `writeBlock` writes into an empty body are the settable names of the
schema, in the order of the specification. -/
theorem writeBlock_names {attributes : List (String × Attribute)}
    {blockTypes : List (String × Block)} {state : Value} {out : List HclItem}
    (hnd : (attributes.map Prod.fst).Nodup)
    (h : writeBlock [] (.mk attributes blockTypes) state = some out) :
    attributeNames out =
      (specOrder (attributes.map Prod.fst)).filter (fun k => isSettable attributes k) := by
  simp only [writeBlock] at h
  cases hw : writeAttributes attributes state []
      (sortStrings (prefixedKeys attributes)) with
  | none => simp [hw] at h
  | some body =>
    simp only [hw] at h
    rw [writeBlockTypes_names _ _ _ h]
    have hmap : (sortStrings (prefixedKeys attributes)).map dropFirst =
        specOrder (attributes.map Prod.fst) := by
      rw [sortStrings_prefixedKeys hnd, List.map_map]
      conv_rhs => rw [← List.map_id (specOrder (attributes.map Prod.fst))]
      exact List.map_congr_left (fun k _ => dropFirst_prefixed k)
    have := writeAttributes_names _ [] body (by rw [hmap]; exact specOrder_nodup hnd)
      (by intro k _; simp [attributeNames]) hw
    rw [this, hmap]
    simp [attributeNames]

theorem lookup_isSome_of_mem {β : Type} :
    ∀ (l : List (String × β)) (k : String), k ∈ l.map Prod.fst → (l.lookup k).isSome = true
  | [], _, h => by simp at h
  | (k2, b) :: rest, k, h => by
    rw [List.lookup_cons]
    by_cases hk : k = k2
    · subst hk
      simp
    · have hb : (k == k2) = false := by simpa using hk
      rw [hb]
      apply lookup_isSome_of_mem rest k
      simpa [hk] using h

theorem writeAttributes_returns (attributes : List (String × Attribute)) (state : Value) :
    ∀ (ks : List String) (body : List HclItem),
      (∀ k ∈ ks, (attributes.lookup (dropFirst k)).isSome = true ∧
        (state.GetAttr (dropFirst k)).isSome = true) →
      ∃ out, writeAttributes attributes state body ks = some out
  | [], body, _ => ⟨body, rfl⟩
  | k :: ks, body, h => by
    obtain ⟨h1, h2⟩ := h k (List.mem_cons_self _ _)
    have hrest : ∀ k2 ∈ ks, (attributes.lookup (dropFirst k2)).isSome = true ∧
        (state.GetAttr (dropFirst k2)).isSome = true :=
      fun k2 hk2 => h k2 (List.mem_cons_of_mem _ hk2)
    obtain ⟨a, ha⟩ := Option.isSome_iff_exists.1 h1
    obtain ⟨v, hv⟩ := Option.isSome_iff_exists.1 h2
    simp only [writeAttributes, ha, hv]
    split
    · exact writeAttributes_returns attributes state ks _ hrest
    · exact writeAttributes_returns attributes state ks _ hrest

theorem writeElements_returns (blockName : String) (inner : Value → Option (List HclItem)) :
    ∀ (elems : List Value) (body : List HclItem),
      (∀ value ∈ elems, value.IsObjectType = true → ∃ nb, inner value = some nb) →
      ∃ out, writeElements blockName inner body elems = some out
  | [], body, _ => ⟨body, rfl⟩
  | value :: rest, body, h => by
    have hrest : ∀ v ∈ rest, v.IsObjectType = true → ∃ nb, inner v = some nb :=
      fun v hv => h v (List.mem_cons_of_mem _ hv)
    simp only [writeElements]
    split
    · rename_i hobj
      obtain ⟨nb, hnb⟩ := h value (List.mem_cons_self _ _) hobj
      simp only [hnb]
      exact writeElements_returns blockName inner rest _ hrest
    · exact writeElements_returns blockName inner rest _ hrest

mutual
/-- On a state that conforms to the schema `writeBlock` returns. -/
theorem writeBlock_returns :
    ∀ (terraformBlock : Block) (state : Value) (body : List HclItem),
      conforms terraformBlock state = true → ∃ out, writeBlock body terraformBlock state = some out
  | .mk attributes blockTypes, state, body, h => by
    simp only [conforms, Bool.and_eq_true, List.all_eq_true] at h
    obtain ⟨hattrs, hblocks⟩ := h
    obtain ⟨body1, hb1⟩ := writeAttributes_returns attributes state
      (sortStrings (prefixedKeys attributes)) body (by
        intro k hk
        rw [mem_sortStrings, prefixedKeys, List.mem_map] at hk
        obtain ⟨kv, hkv, rfl⟩ := hk
        rw [dropFirst_prefixed]
        exact ⟨lookup_isSome_of_mem _ _ (List.mem_map_of_mem _ hkv), hattrs kv hkv⟩)
    simp only [writeBlock, hb1]
    exact writeBlockTypes_returns blockTypes state body1 hblocks
/-- On a state that conforms to the schema the loop over the block types returns. -/
theorem writeBlockTypes_returns :
    ∀ (blockTypes : List (String × Block)) (state : Value) (body : List HclItem),
      conformsBlockTypes state blockTypes = true →
      ∃ out, writeBlockTypes state body blockTypes = some out
  | [], _, body, _ => ⟨body, rfl⟩
  | (blockName, blockSchema) :: rest, state, body, h => by
    simp only [conformsBlockTypes, Bool.and_eq_true] at h
    obtain ⟨hfirst, hrest⟩ := h
    cases hg : state.GetAttr blockName with
    | none => simp [hg] at hfirst
    | some newState =>
      simp only [hg] at hfirst
      simp only [writeBlockTypes, hg]
      by_cases hobj : newState.IsObjectType = true
      · simp only [hobj, if_true] at hfirst ⊢
        obtain ⟨nb, hnb⟩ := writeBlock_returns blockSchema newState [] hfirst
        simp only [hnb]
        exact writeBlockTypes_returns rest state _ hrest
      · have hobj2 : newState.IsObjectType = false := by simpa using hobj
        simp only [hobj2, Bool.false_eq_true, if_false] at hfirst ⊢
        split
        · rename_i elems
          simp only [List.all_eq_true, Bool.or_eq_true, Bool.not_eq_true_eq_eq_false,
            Bool.not_eq_eq_eq_not, Bool.not_true] at hfirst
          obtain ⟨body1, hb1⟩ := writeElements_returns blockName
            (fun value => writeBlock [] blockSchema value) elems body (by
              intro value hv hvo
              rcases hfirst value hv with h1 | h1
              · rw [hvo] at h1
                exact absurd h1 (by decide)
              · exact writeBlock_returns blockSchema value [] h1)
          simp only [hb1]
          exact writeBlockTypes_returns rest state _ hrest
        · simp at hfirst
        · exact writeBlockTypes_returns rest state _ hrest
end

theorem mem_of_lookup_eq_some {β : Type} :
    ∀ (l : List (String × β)) (k : String) (a : β), l.lookup k = some a → (k, a) ∈ l
  | [], _, _, h => by simp at h
  | (k2, b) :: rest, k, a, h => by
    rw [List.lookup_cons] at h
    by_cases hk : k = k2
    · subst hk
      simp only [beq_self_eq_true, Option.some.injEq] at h
      subst h
      exact List.mem_cons_self _ _
    · have hb : (k == k2) = false := by simpa using hk
      rw [hb] at h
      exact List.mem_cons_of_mem _ (mem_of_lookup_eq_some rest k a h)

theorem lookup_eq_some_of_mem {β : Type} :
    ∀ (l : List (String × β)) (k : String) (a : β), (l.map Prod.fst).Nodup → (k, a) ∈ l →
      l.lookup k = some a
  | [], _, _, _, h => by simp at h
  | (k2, b) :: rest, k, a, hnd, h => by
    rw [List.map_cons, List.nodup_cons] at hnd
    rw [List.lookup_cons]
    rcases List.mem_cons.1 h with h1 | h1
    · cases h1
      simp
    · have hk : k ≠ k2 := by
        rintro rfl
        exact hnd.1 (List.mem_map.2 ⟨(k, a), h1, rfl⟩)
      have hb : (k == k2) = false := by simpa using hk
      rw [hb]
      exact lookup_eq_some_of_mem rest k a hnd.2 h1

theorem isSettable_mem {attributes : List (String × Attribute)} {k : String}
    (h : isSettable attributes k = true) : k ∈ attributes.map Prod.fst := by
  unfold isSettable at h
  cases hl : attributes.lookup k with
  | none => simp [hl] at h
  | some a => exact List.mem_map.2 ⟨(k, a), mem_of_lookup_eq_some _ _ _ hl, rfl⟩

theorem pairwise_stringLess {l : List String} (hs : l.Sorted (fun a b => stringLE a b = true))
    (hn : l.Nodup) : l.Pairwise (fun a b => stringLess a b = true) :=
  (List.Pairwise.and hs hn).imp (fun h => stringLess_of_le_of_ne h.1 h.2)

/-- C1: on a state that conforms to the schema `writeBlock` returns, and whenever it
returns the attributes it has written are the settable ones among `id`, `name`,
`location`, `resource_group_name` in that order, then the settable names ending in `_id` or
`_ids` in strictly ascending order, then the remaining settable names in strictly ascending
order. -/
theorem writeBlock_attribute_order (attributes : List (String × Attribute))
    (blockTypes : List (String × Block)) (state : Value)
    (hnd : (attributes.map Prod.fst).Nodup) :
    (conforms (.mk attributes blockTypes) state = true →
      ∃ out, writeBlock [] (.mk attributes blockTypes) state = some out) ∧
    ∀ out, writeBlock [] (.mk attributes blockTypes) state = some out →
      ∃ ids others : List String,
        attributeNames out =
          fixedNames.filter (fun k => isSettable attributes k) ++ ids ++ others ∧
        ids.Pairwise (fun a b => stringLess a b = true) ∧
        others.Pairwise (fun a b => stringLess a b = true) ∧
        (∀ k, k ∈ ids ↔ isSettable attributes k = true ∧ endsInID k = true) ∧
        (∀ k, k ∈ others ↔
          isSettable attributes k = true ∧ endsInID k = false ∧ k ∉ fixedNames) := by
  refine ⟨fun hc => writeBlock_returns _ _ _ hc, ?_⟩
  intro out h
  have hnames := writeBlock_names hnd h
  refine ⟨(sortStrings ((attributes.map Prod.fst).filter (fun k => endsInID k))).filter
      (fun k => isSettable attributes k),
    (sortStrings ((attributes.map Prod.fst).filter
      (fun k => !endsInID k && !decide (k ∈ fixedNames)))).filter
      (fun k => isSettable attributes k), ?_, ?_, ?_, ?_, ?_⟩
  · rw [hnames, specOrder, List.filter_append, List.filter_append, List.filter_filter,
      List.append_assoc]
    congr 1
    apply List.filter_congr
    intro k _
    cases hs : isSettable attributes k
    · simp
    · simp [isSettable_mem hs]
  · exact pairwise_stringLess ((sortStrings_sorted _).sublist (List.filter_sublist _))
      (((sortStrings_perm _).nodup_iff.2 (hnd.filter _)).filter _)
  · exact pairwise_stringLess ((sortStrings_sorted _).sublist (List.filter_sublist _))
      (((sortStrings_perm _).nodup_iff.2 (hnd.filter _)).filter _)
  · intro k
    simp only [List.mem_filter, mem_sortStrings]
    constructor
    · rintro ⟨⟨_, h2⟩, h3⟩
      exact ⟨h3, h2⟩
    · rintro ⟨h1, h2⟩
      exact ⟨⟨isSettable_mem h1, h2⟩, h1⟩
  · intro k
    simp only [List.mem_filter, mem_sortStrings, Bool.and_eq_true, Bool.not_eq_true_eq_eq_false,
      Bool.not_eq_eq_eq_not, Bool.not_true, decide_eq_false_iff_not]
    constructor
    · rintro ⟨⟨_, h2, h3⟩, h4⟩
      exact ⟨h4, h2, h3⟩
    · rintro ⟨h1, h2, h3⟩
      exact ⟨⟨isSettable_mem h1, h2, h3⟩, h1⟩

/-- The sample of C1: the settable attributes `zebra, id, name, custom_id, location` are
written as `id, name, location, custom_id, zebra`. -/
theorem writeBlock_attribute_order_witness :
    conforms sampleBlock sampleState = true ∧
    (∃ out, writeBlock [] sampleBlock sampleState = some out) ∧
    writeBlock [] sampleBlock sampleState = some sampleBody ∧
    attributeNames sampleBody = ["id", "name", "location", "custom_id", "zebra"] ∧
    ∃ ids others : List String,
      attributeNames sampleBody =
        fixedNames.filter (fun k => isSettable
          [("zebra", ⟨false, false⟩), ("id", ⟨false, false⟩), ("name", ⟨false, false⟩),
           ("custom_id", ⟨false, true⟩), ("location", ⟨false, false⟩)] k) ++ ids ++ others ∧
      ids.Pairwise (fun a b => stringLess a b = true) ∧
      others.Pairwise (fun a b => stringLess a b = true) ∧
      (∀ k, k ∈ ids ↔ isSettable
          [("zebra", ⟨false, false⟩), ("id", ⟨false, false⟩), ("name", ⟨false, false⟩),
           ("custom_id", ⟨false, true⟩), ("location", ⟨false, false⟩)] k = true ∧
          endsInID k = true) ∧
      (∀ k, k ∈ others ↔ isSettable
          [("zebra", ⟨false, false⟩), ("id", ⟨false, false⟩), ("name", ⟨false, false⟩),
           ("custom_id", ⟨false, true⟩), ("location", ⟨false, false⟩)] k = true ∧
          endsInID k = false ∧ k ∉ fixedNames) :=
  ⟨rfl, (writeBlock_attribute_order _ [] sampleState (by decide)).1 rfl, rfl, rfl,
   (writeBlock_attribute_order _ [] sampleState (by decide)).2 sampleBody rfl⟩

/-- C10: on a state that conforms to the schema `writeBlock` returns, and whenever it
returns it has written only attributes of the schema, and has written an attribute of the
schema exactly when its entry is not computed, or is computed and optional. -/
theorem writeBlock_emits_settable (attributes : List (String × Attribute))
    (blockTypes : List (String × Block)) (state : Value)
    (hnd : (attributes.map Prod.fst).Nodup) :
    (conforms (.mk attributes blockTypes) state = true →
      ∃ out, writeBlock [] (.mk attributes blockTypes) state = some out) ∧
    ∀ out, writeBlock [] (.mk attributes blockTypes) state = some out →
      (∀ k, k ∈ attributeNames out → ∃ a, (k, a) ∈ attributes) ∧
      ∀ k a, (k, a) ∈ attributes →
        (k ∈ attributeNames out ↔
          (a.Computed = false ∨ (a.Computed = true ∧ a.Optional = true))) := by
  refine ⟨fun hc => writeBlock_returns _ _ _ hc, ?_⟩
  intro out h
  have hnames := writeBlock_names hnd h
  have hiff : ∀ k, k ∈ attributeNames out ↔ isSettable attributes k = true := by
    intro k
    rw [hnames, List.mem_filter, specOrder_mem]
    exact ⟨fun h1 => h1.2, fun h1 => ⟨isSettable_mem h1, h1⟩⟩
  constructor
  · intro k hk
    have hm := isSettable_mem ((hiff k).1 hk)
    obtain ⟨⟨k2, a⟩, hmem, hfst⟩ := List.mem_map.1 hm
    simp only at hfst
    subst hfst
    exact ⟨a, hmem⟩
  · intro k a hka
    rw [hiff k, isSettable, lookup_eq_some_of_mem _ _ _ hnd hka]
    obtain ⟨c, o⟩ := a
    cases c <;> cases o <;> simp

/-- The sample of C10: of `tags` (computed, optional), `id` (computed, not optional) and
`sku` (not computed), `id` is left out and the other two are written. -/
theorem writeBlock_emits_settable_witness :
    conforms computedBlock computedState = true ∧
    (∃ out, writeBlock [] computedBlock computedState = some out) ∧
    writeBlock [] computedBlock computedState = some computedBody ∧
    attributeNames computedBody = ["sku", "tags"] ∧
    ((∀ k, k ∈ attributeNames computedBody → ∃ a, (k, a) ∈
        [("tags", (⟨true, true⟩ : Attribute)), ("id", ⟨true, false⟩), ("sku", ⟨false, false⟩)]) ∧
      ∀ k a, (k, a) ∈
          [("tags", (⟨true, true⟩ : Attribute)), ("id", ⟨true, false⟩), ("sku", ⟨false, false⟩)] →
        (k ∈ attributeNames computedBody ↔
          (a.Computed = false ∨ (a.Computed = true ∧ a.Optional = true)))) :=
  ⟨rfl, (writeBlock_emits_settable _ [] computedState (by decide)).1 rfl, rfl, rfl,
   (writeBlock_emits_settable _ [] computedState (by decide)).2 computedBody rfl⟩

theorem isSettable_perm {a1 a2 : List (String × Attribute)} (hp : a1.Perm a2)
    (hnd : (a1.map Prod.fst).Nodup) (k : String) : isSettable a1 k = isSettable a2 k := by
  have hnd2 : (a2.map Prod.fst).Nodup := (hp.map _).nodup_iff.1 hnd
  unfold isSettable
  cases h1 : a1.lookup k with
  | some a =>
    rw [lookup_eq_some_of_mem a2 k a hnd2 (hp.mem_iff.1 (mem_of_lookup_eq_some a1 k a h1))]
  | none =>
    cases h2 : a2.lookup k with
    | none => rfl
    | some a =>
      rw [lookup_eq_some_of_mem a1 k a hnd (hp.mem_iff.2 (mem_of_lookup_eq_some a2 k a h2))] at h1
      exact absurd h1 (by simp)

theorem specOrder_perm_eq {n1 n2 : List String} (hp : n1.Perm n2) :
    specOrder n1 = specOrder n2 := by
  unfold specOrder
  congr 1
  · apply List.filter_congr
    intro k _
    simp [hp.mem_iff]
  · congr 1
    · exact sortStrings_eq_of_perm ((sortStrings_perm _).trans (hp.filter _).symm)
        (sortStrings_sorted _)
    · exact sortStrings_eq_of_perm ((sortStrings_perm _).trans (hp.filter _).symm)
        (sortStrings_sorted _)

/-- The attributes `writeBlock` writes, and their order, do not depend on the order in
which the two maps of the schema are ranged over. -/
theorem writeBlock_names_perm {a1 a2 : List (String × Attribute)}
    {b1 b2 : List (String × Block)} {state : Value} {o1 o2 : List HclItem}
    (hp : a1.Perm a2) (hnd : (a1.map Prod.fst).Nodup)
    (h1 : writeBlock [] (.mk a1 b1) state = some o1)
    (h2 : writeBlock [] (.mk a2 b2) state = some o2) :
    attributeNames o1 = attributeNames o2 := by
  have hnd2 : (a2.map Prod.fst).Nodup := (hp.map _).nodup_iff.1 hnd
  rw [writeBlock_names hnd h1, writeBlock_names hnd2 h2, specOrder_perm_eq (hp.map _)]
  apply List.filter_congr
  intro k _
  exact isSettable_perm hp hnd k

/-! ## The order of nested blocks (`printState`) -/

/-- C2: `printState` writes nested blocks in the order in which the `BlockTypes` map is
ranged over: the same schema and state give the blocks `a, b` for one order of the
iteration and `b, a` for the other, so the two files differ. -/
theorem printState_block_order_follows_iteration :
    printStateFile twoBlocksState "azurerm_x" (some twoBlocksAB) =
      some [.block "resource" ["azurerm_x", "todo_resource_name"]
        [.block "a" [] [], .block "b" [] []]] ∧
    printStateFile twoBlocksState "azurerm_x" (some twoBlocksBA) =
      some [.block "resource" ["azurerm_x", "todo_resource_name"]
        [.block "b" [] [], .block "a" [] []]] ∧
    printStateFile twoBlocksState "azurerm_x" (some twoBlocksAB) ≠
      printStateFile twoBlocksState "azurerm_x" (some twoBlocksBA) := by
  refine ⟨rfl, rfl, ?_⟩
  intro h
  have h1 : printStateFile twoBlocksState "azurerm_x" (some twoBlocksAB) =
      some [.block "resource" ["azurerm_x", "todo_resource_name"]
        [.block "a" [] [], .block "b" [] []]] := rfl
  have h2 : printStateFile twoBlocksState "azurerm_x" (some twoBlocksBA) =
      some [.block "resource" ["azurerm_x", "todo_resource_name"]
        [.block "b" [] [], .block "a" [] []]] := rfl
  rw [h1, h2] at h
  simp at h

/-! ## The resolver and the virtual machine probe -/

theorem getJSONProperty_eq_path :
    ∀ (rest : List String) (json : JSON) (name : String),
      getJSONProperty json name rest = .ok ((json.path (name :: rest)).getD .null)
  | [], json, name => by
    cases json <;> simp [getJSONProperty, JSON.path, JSON.member]
    rename_i members
    cases members.lookup name <;> simp [JSON.path]
  | next :: more, json, name => by
    cases json with
    | object members =>
      cases hl : members.lookup name with
      | none => simp [getJSONProperty, JSON.path, JSON.member, hl]
      | some sub =>
        have h1 : getJSONProperty (.object members) name (next :: more) =
            getJSONProperty sub next more := by
          simp [getJSONProperty, hl]
        have h2 : (JSON.object members).path (name :: next :: more) =
            sub.path (next :: more) := by
          simp [JSON.path, JSON.member, hl]
        rw [h1, h2]
        exact getJSONProperty_eq_path more sub next
    | null => simp [getJSONProperty, JSON.path, JSON.member]
    | bool b => simp [getJSONProperty, JSON.path, JSON.member]
    | number t => simp [getJSONProperty, JSON.path, JSON.member]
    | string t => simp [getJSONProperty, JSON.path, JSON.member]
    | array t => simp [getJSONProperty, JSON.path, JSON.member]

/-- The resolver on an identifier of a virtual machine whose probe answered with a JSON
object, by the value found at `properties.storageProfile.osDisk.osType`. -/
theorem getResourceTypeName_of_probe (env : Env) (resourceID body : String)
    (jsonData : List (String × JSON))
    (hm : (env.Match vmEndpoint resourceID).IsMatch = true)
    (hreq : env.DoRequest "GET" (resourceID ++ "?api-version=" ++ vmEndpoint.APIVersion) = .ok body)
    (hjson : env.Unmarshal body = .ok jsonData) :
    getResourceTypeNameFromResourceID env resourceID =
      match ((JSON.object jsonData).path osTypePath).getD .null with
      | .string osType =>
        if osType = "Windows" then .ok "azurerm_windows_virtual_machine"
        else if osType = "Linux" then .ok "azurerm_linux_virtual_machine"
        else .ok (scanBaseConfig env resourceID env.rangeBaseConfig)
      | _ => .ok "" := by
  unfold getResourceTypeNameFromResourceID
  simp only [hm, if_true, hreq, getJSONPropertyFromString, hjson, getJSONProperty_eq_path,
    osTypePath]

/-- C9: for an identifier that matches the template of virtual machines, when the probe
succeeds and the body has the string `"Windows"` at `properties.storageProfile.osDisk.osType`
the resolver returns `azurerm_windows_virtual_machine` without error, and with `"Linux"`
there it returns `azurerm_linux_virtual_machine`, whatever the table holds. -/
theorem getResourceTypeName_vm (env : Env) (resourceID body : String)
    (jsonData : List (String × JSON))
    (hm : (env.Match vmEndpoint resourceID).IsMatch = true)
    (hreq : env.DoRequest "GET" (resourceID ++ "?api-version=" ++ vmEndpoint.APIVersion) = .ok body)
    (hjson : env.Unmarshal body = .ok jsonData) :
    ((JSON.object jsonData).path osTypePath = some (.string "Windows") →
      getResourceTypeNameFromResourceID env resourceID = .ok "azurerm_windows_virtual_machine") ∧
    ((JSON.object jsonData).path osTypePath = some (.string "Linux") →
      getResourceTypeNameFromResourceID env resourceID = .ok "azurerm_linux_virtual_machine") := by
  rw [getResourceTypeName_of_probe env resourceID body jsonData hm hreq hjson]
  constructor
  · intro h
    rw [h]
    rfl
  · intro h
    rw [h]
    rfl

/-- The sample of C9: the probe of `vmID` answering `Windows`, and answering `Linux`. -/
theorem getResourceTypeName_vm_witness :
    getResourceTypeNameFromResourceID (sampleEnvWithOS (.string "Windows")) vmID =
      .ok "azurerm_windows_virtual_machine" ∧
    getResourceTypeNameFromResourceID (sampleEnvWithOS (.string "Linux")) vmID =
      .ok "azurerm_linux_virtual_machine" :=
  ⟨(getResourceTypeName_vm (sampleEnvWithOS (.string "Windows")) vmID "body" _ rfl rfl rfl).1 rfl,
   (getResourceTypeName_vm (sampleEnvWithOS (.string "Linux")) vmID "body" _ rfl rfl rfl).2 rfl⟩

/-- C3, refuted as stated: on the identifier `vmID`, which matches the template of virtual
machines, a probe body without `osType`, or with an `osType` that is not a string, makes
the resolver return the empty type name without error, whereas the scan of the table
returns `azurerm_windows_virtual_machine`: the resolver does not return what the scan
returns. -/
theorem getResourceTypeName_vm_without_osType :
    (sampleEnv.Match vmEndpoint vmID).IsMatch = true ∧
    getResourceTypeNameFromResourceID sampleEnv vmID = .ok "" ∧
    getResourceTypeNameFromResourceID (sampleEnvWithOS (.number "1")) vmID = .ok "" ∧
    scanBaseConfig sampleEnv vmID sampleEnv.rangeBaseConfig = "azurerm_windows_virtual_machine" ∧
    getResourceTypeNameFromResourceID sampleEnv vmID ≠
      .ok (scanBaseConfig sampleEnv vmID sampleEnv.rangeBaseConfig) ∧
    getResourceTypeNameFromResourceID (sampleEnvWithOS (.number "1")) vmID ≠
      .ok (scanBaseConfig (sampleEnvWithOS (.number "1")) vmID
        (sampleEnvWithOS (.number "1")).rangeBaseConfig) := by
  refine ⟨rfl, rfl, rfl, rfl, ?_, ?_⟩
  · intro h
    have h1 : getResourceTypeNameFromResourceID sampleEnv vmID = .ok "" := rfl
    have h2 : scanBaseConfig sampleEnv vmID sampleEnv.rangeBaseConfig =
        "azurerm_windows_virtual_machine" := rfl
    rw [h1, h2] at h
    injection h with h
    exact absurd h (by decide)
  · intro h
    have h1 : getResourceTypeNameFromResourceID (sampleEnvWithOS (.number "1")) vmID =
        .ok "" := rfl
    have h2 : scanBaseConfig (sampleEnvWithOS (.number "1")) vmID
        (sampleEnvWithOS (.number "1")).rangeBaseConfig =
        "azurerm_windows_virtual_machine" := rfl
    rw [h1, h2] at h
    injection h with h
    exact absurd h (by decide)

/-- C3, amended: for an identifier that matches the template of virtual machines and a
probe whose body parses as a JSON object, the resolver does not fail: when the value at
`properties.storageProfile.osDisk.osType` is a string other than `Windows` and `Linux` it
returns exactly what the scan of the table returns for the identifier, and when there is
no value there, or one that is not a string, it returns the empty type name and the table
is not scanned. -/
theorem getResourceTypeName_vm_other_osType (env : Env) (resourceID body : String)
    (jsonData : List (String × JSON))
    (hm : (env.Match vmEndpoint resourceID).IsMatch = true)
    (hreq : env.DoRequest "GET" (resourceID ++ "?api-version=" ++ vmEndpoint.APIVersion) = .ok body)
    (hjson : env.Unmarshal body = .ok jsonData) :
    (∀ osType, (JSON.object jsonData).path osTypePath = some (.string osType) →
      osType ≠ "Windows" → osType ≠ "Linux" →
      getResourceTypeNameFromResourceID env resourceID =
        .ok (scanBaseConfig env resourceID env.rangeBaseConfig)) ∧
    ((∀ osType, (JSON.object jsonData).path osTypePath ≠ some (.string osType)) →
      getResourceTypeNameFromResourceID env resourceID = .ok "") := by
  rw [getResourceTypeName_of_probe env resourceID body jsonData hm hreq hjson]
  constructor
  · intro osType h hw hl
    rw [h]
    simp only [Option.getD, hw, hl, if_false]
  · intro h
    cases hp : (JSON.object jsonData).path osTypePath with
    | none => rfl
    | some v =>
      cases v with
      | string s => exact absurd hp (h s)
      | null => rfl
      | bool b => rfl
      | number t => rfl
      | array t => rfl
      | object t => rfl

/-- The sample of the amended C3: the probe of `vmID` answering the string `BSD` falls
through to the scan; answering without `osType`, and with a number there, it gives the
empty type name. -/
theorem getResourceTypeName_vm_other_osType_witness :
    getResourceTypeNameFromResourceID (sampleEnvWithOS (.string "BSD")) vmID =
      .ok (scanBaseConfig (sampleEnvWithOS (.string "BSD")) vmID
        (sampleEnvWithOS (.string "BSD")).rangeBaseConfig) ∧
    scanBaseConfig (sampleEnvWithOS (.string "BSD")) vmID
        (sampleEnvWithOS (.string "BSD")).rangeBaseConfig = "azurerm_windows_virtual_machine" ∧
    getResourceTypeNameFromResourceID sampleEnv vmID = .ok "" ∧
    getResourceTypeNameFromResourceID (sampleEnvWithOS (.number "1")) vmID = .ok "" :=
  ⟨(getResourceTypeName_vm_other_osType (sampleEnvWithOS (.string "BSD")) vmID "body" _
      rfl rfl rfl).1 "BSD" rfl (by decide) (by decide),
   rfl,
   (getResourceTypeName_vm_other_osType sampleEnv vmID "body" _ rfl rfl rfl).2
     (fun osType h => by
       have hp : (JSON.object [("properties",
           .object [("storageProfile", .object [("osDisk", .object [])])])]).path osTypePath =
           none := rfl
       rw [hp] at h
       exact absurd h (by simp)),
   (getResourceTypeName_vm_other_osType (sampleEnvWithOS (.number "1")) vmID "body" _
      rfl rfl rfl).2
     (fun osType h => by
       have hp : (JSON.object [("properties",
           .object [("storageProfile",
             .object [("osDisk", .object [("osType", .number "1")])])])]).path osTypePath =
           some (.number "1") := rfl
       rw [hp] at h
       injection h with h
       cases h)⟩

/-! ## The mapping table -/

theorem isSome_map_eq {α β : Type} (f : α → β) (o : Option α) :
    (o.map f).isSome = o.isSome := by
  cases o <;> rfl

theorem compatible_of_matchSegments :
    ∀ (t1 t2 : List EndpointSegment) (segs : List (List Char)),
      (matchSegments t1 segs).isSome = true → (matchSegments t2 segs).isSome = true →
      compatibleSegments t1 t2 = true
  | [], [], _, _, _ => rfl
  | [], _ :: _, [], _, h2 => by simp [matchSegments] at h2
  | [], _ :: _, _ :: _, h1, _ => by simp [matchSegments] at h1
  | _ :: _, [], [], h1, _ => by simp [matchSegments] at h1
  | _ :: _, [], _ :: _, _, h2 => by simp [matchSegments] at h2
  | _ :: _, _ :: _, [], h1, _ => by simp [matchSegments] at h1
  | .literal a :: t1, .literal b :: t2, seg :: segs, h1, h2 => by
    simp only [matchSegments] at h1 h2
    split at h1
    · split at h2
      · rename_i ha hb
        simp only [compatibleSegments, Bool.and_eq_true, decide_eq_true_eq]
        exact ⟨ha.trans hb.symm, compatible_of_matchSegments t1 t2 segs h1 h2⟩
      · simp at h2
    · simp at h1
  | .literal a :: t1, .placeholder b :: t2, seg :: segs, h1, h2 => by
    simp only [matchSegments, isSome_map_eq] at h1 h2
    split at h1
    · simp only [compatibleSegments]
      exact compatible_of_matchSegments t1 t2 segs h1 h2
    · simp at h1
  | .placeholder a :: t1, .literal b :: t2, seg :: segs, h1, h2 => by
    simp only [matchSegments, isSome_map_eq] at h1 h2
    split at h2
    · simp only [compatibleSegments]
      exact compatible_of_matchSegments t1 t2 segs h1 h2
    · simp at h2
  | .placeholder a :: t1, .placeholder b :: t2, seg :: segs, h1, h2 => by
    simp only [matchSegments, isSome_map_eq] at h1 h2
    simp only [compatibleSegments]
    exact compatible_of_matchSegments t1 t2 segs h1 h2

theorem specMatch_isMatch (endpoint : EndpointInfo) (id : String) :
    (specMatch endpoint id).IsMatch =
      (matchSegments (templateSegments endpoint.TemplateURL) (splitSlash id.data)).isSome := by
  unfold specMatch
  cases matchSegments (templateSegments endpoint.TemplateURL) (splitSlash id.data) <;> rfl

set_option maxRecDepth 100000 in
/-- Two entries of the table that one identifier can match carry the same template, and
are the same entry unless that template is the one of virtual machines. -/
theorem tfimportBaseConfig_compatible :
    ∀ e1 ∈ tfimportBaseConfig, ∀ e2 ∈ tfimportBaseConfig,
      compatibleSegments (templateSegments e1.2.TemplateURL)
        (templateSegments e2.2.TemplateURL) = true →
      e1.2 = e2.2 ∧ (e1 = e2 ∨ e1.2 = vmEndpoint) := by
  decide

theorem tfimportBaseConfig_vm_names :
    ∀ e ∈ tfimportBaseConfig, e.2 = vmEndpoint →
      e.1 = "azurerm_windows_virtual_machine" ∨ e.1 = "azurerm_linux_virtual_machine" := by
  decide

theorem scanBaseConfig_none (env : Env) (id : String) :
    ∀ (table : List (String × EndpointInfo)),
      (∀ e ∈ table, (env.Match e.2 id).IsMatch = false) → scanBaseConfig env id table = ""
  | [], _ => rfl
  | (n, ep) :: rest, h => by
    have h1 : (env.Match ep id).IsMatch = false := h (n, ep) (List.mem_cons_self _ _)
    simp only [scanBaseConfig, h1, Bool.false_eq_true, if_false]
    exact scanBaseConfig_none env id rest (fun e he => h e (List.mem_cons_of_mem _ he))

theorem scanBaseConfig_some (env : Env) (id : String) :
    ∀ (table : List (String × EndpointInfo)),
      (∃ e ∈ table, (env.Match e.2 id).IsMatch = true) →
      ∃ e ∈ table, (env.Match e.2 id).IsMatch = true ∧ scanBaseConfig env id table = e.1
  | [], h => by simp at h
  | (n, ep) :: rest, h => by
    by_cases h1 : (env.Match ep id).IsMatch = true
    · exact ⟨(n, ep), List.mem_cons_self _ _, h1, by simp [scanBaseConfig, h1]⟩
    · obtain ⟨e, he, hm⟩ := h
      have her : e ∈ rest := by
        rcases List.mem_cons.1 he with h2 | h2
        · subst h2
          exact absurd hm h1
        · exact h2
      obtain ⟨e2, he2, hm2, hs⟩ := scanBaseConfig_some env id rest ⟨e, her, hm⟩
      exact ⟨e2, List.mem_cons_of_mem _ he2, hm2, by simp [scanBaseConfig, h1, hs]⟩

theorem tfimportBaseConfig_same_template (id : String) :
    ∀ e1 ∈ tfimportBaseConfig, ∀ e2 ∈ tfimportBaseConfig,
      (specMatch e1.2 id).IsMatch = true → (specMatch e2.2 id).IsMatch = true →
      e1.2 = e2.2 ∧ (e1 = e2 ∨ e1.2 = vmEndpoint) := by
  intro e1 h1 e2 h2 m1 m2
  rw [specMatch_isMatch] at m1 m2
  exact tfimportBaseConfig_compatible e1 h1 e2 h2 (compatible_of_matchSegments _ _ _ m1 m2)

/-- C5, refuted as stated: the identifier `vmID` matches the templates of two entries of
the table, and the scan returns `azurerm_windows_virtual_machine` for the table in the
order of the source and `azurerm_linux_virtual_machine` for the reverse order. -/
theorem tfimportBaseConfig_not_exclusive :
    ¬ (∀ e1 ∈ tfimportBaseConfig, ∀ e2 ∈ tfimportBaseConfig,
        (specMatch e1.2 vmID).IsMatch = true → (specMatch e2.2 vmID).IsMatch = true → e1 = e2) ∧
    scanBaseConfig sampleEnv vmID tfimportBaseConfig = "azurerm_windows_virtual_machine" ∧
    scanBaseConfig sampleEnv vmID tfimportBaseConfig.reverse = "azurerm_linux_virtual_machine" := by
  refine ⟨?_, rfl, rfl⟩
  intro h
  have h1 := h ("azurerm_windows_virtual_machine", vmEndpoint) (by decide)
    ("azurerm_linux_virtual_machine", vmEndpoint) (by decide) rfl rfl
  exact absurd h1 (by decide)

/-- C5, amended: on the template registry of the specification, an identifier that does
not match the template of virtual machines matches at most one entry of the table, and
the scan returns the same type name for every order of the table; an identifier that
matches the template of virtual machines matches exactly the entries that carry that
template, and the scan returns one of the two virtual machine type names. -/
theorem tfimportBaseConfig_exclusive_but_vm (env : Env) (hM : env.Match = specMatch)
    (id : String) :
    ((env.Match vmEndpoint id).IsMatch = false →
      (∀ e1 ∈ tfimportBaseConfig, ∀ e2 ∈ tfimportBaseConfig,
        (env.Match e1.2 id).IsMatch = true → (env.Match e2.2 id).IsMatch = true → e1 = e2) ∧
      ∀ order1 order2 : List (String × EndpointInfo),
        order1.Perm tfimportBaseConfig → order2.Perm tfimportBaseConfig →
        scanBaseConfig env id order1 = scanBaseConfig env id order2) ∧
    ((env.Match vmEndpoint id).IsMatch = true →
      (∀ e ∈ tfimportBaseConfig, (env.Match e.2 id).IsMatch = true ↔ e.2 = vmEndpoint) ∧
      ∀ order : List (String × EndpointInfo), order.Perm tfimportBaseConfig →
        scanBaseConfig env id order = "azurerm_windows_virtual_machine" ∨
        scanBaseConfig env id order = "azurerm_linux_virtual_machine") := by
  have hvm : ("azurerm_windows_virtual_machine", vmEndpoint) ∈ tfimportBaseConfig := by decide
  constructor
  · intro hno
    have hex : ∀ e1 ∈ tfimportBaseConfig, ∀ e2 ∈ tfimportBaseConfig,
        (env.Match e1.2 id).IsMatch = true → (env.Match e2.2 id).IsMatch = true → e1 = e2 := by
      intro e1 h1 e2 h2 m1 m2
      rcases (tfimportBaseConfig_same_template id e1 h1 e2 h2 (hM ▸ m1) (hM ▸ m2)).2 with h | h
      · exact h
      · rw [h, hno] at m1
        exact absurd m1 (by decide)
    refine ⟨hex, ?_⟩
    intro order1 order2 p1 p2
    by_cases hany : ∃ e ∈ tfimportBaseConfig, (env.Match e.2 id).IsMatch = true
    · obtain ⟨e0, he0, hm0⟩ := hany
      obtain ⟨a, ha, hma, hsa⟩ := scanBaseConfig_some env id order1 ⟨e0, p1.mem_iff.2 he0, hm0⟩
      obtain ⟨b, hb, hmb, hsb⟩ := scanBaseConfig_some env id order2 ⟨e0, p2.mem_iff.2 he0, hm0⟩
      rw [hsa, hsb, hex a (p1.mem_iff.1 ha) b (p2.mem_iff.1 hb) hma hmb]
    · have hnone : ∀ e ∈ tfimportBaseConfig, (env.Match e.2 id).IsMatch = false := by
        intro e he
        cases hme : (env.Match e.2 id).IsMatch
        · rfl
        · exact absurd ⟨e, he, hme⟩ hany
      rw [scanBaseConfig_none env id order1 (fun e he => hnone e (p1.mem_iff.1 he)),
        scanBaseConfig_none env id order2 (fun e he => hnone e (p2.mem_iff.1 he))]
  · intro hyes
    have hiff : ∀ e ∈ tfimportBaseConfig,
        ((env.Match e.2 id).IsMatch = true ↔ e.2 = vmEndpoint) := by
      intro e he
      constructor
      · intro hm
        exact (tfimportBaseConfig_same_template id e he _ hvm (hM ▸ hm) (hM ▸ hyes)).1
      · intro h
        rw [h]
        exact hyes
    refine ⟨hiff, ?_⟩
    intro order p
    obtain ⟨a, ha, hma, hsa⟩ := scanBaseConfig_some env id order
      ⟨_, p.mem_iff.2 hvm, hyes⟩
    rw [hsa]
    exact tfimportBaseConfig_vm_names a (p.mem_iff.1 ha) ((hiff a (p.mem_iff.1 ha)).1 hma)

/-- The sample of the amended C5: the identifier of a storage container does not match
the template of virtual machines, so the scan does not depend on the order; `vmID` does,
and the scan returns a virtual machine type name. -/
theorem tfimportBaseConfig_exclusive_but_vm_witness :
    (sampleEnv.Match vmEndpoint containerID).IsMatch = false ∧
    scanBaseConfig sampleEnv containerID tfimportBaseConfig.reverse =
      scanBaseConfig sampleEnv containerID tfimportBaseConfig ∧
    (sampleEnv.Match vmEndpoint vmID).IsMatch = true ∧
    (scanBaseConfig sampleEnv vmID tfimportBaseConfig.reverse = "azurerm_windows_virtual_machine" ∨
      scanBaseConfig sampleEnv vmID tfimportBaseConfig.reverse = "azurerm_linux_virtual_machine") :=
  ⟨rfl,
   ((tfimportBaseConfig_exclusive_but_vm sampleEnv rfl containerID).1 rfl).2 _ _
     (List.reverse_perm _) (List.Perm.refl _),
   rfl,
   ((tfimportBaseConfig_exclusive_but_vm sampleEnv rfl vmID).2 rfl).2 _ (List.reverse_perm _)⟩

/-! ## The recursive crawl -/

theorem ignoredBySuffix_eq_any (childID : String) :
    ∀ (suffixes : List String),
      ignoredBySuffix childID suffixes = suffixes.any (fun suffix => HasSuffix childID suffix)
  | [] => rfl
  | suffix :: rest => by
    simp only [ignoredBySuffix, List.any_cons, ignoredBySuffix_eq_any childID rest]
    cases HasSuffix childID suffix <;> simp

theorem ignoredByEndpoint_eq_any (env : Env) (childID : String) :
    ∀ (rules : List EndpointInfo),
      ignoredByEndpoint env childID rules =
        rules.any (fun ignoreEndpoint => (env.Match ignoreEndpoint childID).IsMatch)
  | [] => rfl
  | rule :: rest => by
    simp only [ignoredByEndpoint, List.any_cons, ignoredByEndpoint_eq_any env childID rest]
    cases (env.Match rule childID).IsMatch <;> simp

theorem retained_eq (env : Env) (context : String) (child : TreeNode) :
    retained env context child =
      (!ignoredBySuffix child.ID resourceIDIgnoreSuffices &&
        !ignoredByEndpoint env child.ID ((endpointsToIgnore.lookup context).getD [])) := by
  rw [ignoredBySuffix_eq_any, ignoredByEndpoint_eq_any, retained]

theorem forChildItems_eq_appendRecursed (env : Env)
    (recurse : TerraformImportExpander → TreeNode → Option (ExpanderResult × TerraformImportExpander))
    (item : TreeNode) (lastResourceTypeName : String) :
    ∀ (childItems : List TreeNode) (terraform : String) (e : TerraformImportExpander),
      forChildItems env recurse item lastResourceTypeName terraform e childItems =
        appendRecursed recurse terraform e
          (childItems.filter (retained env (contextTypeName item lastResourceTypeName)))
  | [], terraform, e => rfl
  | childItem :: rest, terraform, e => by
    have ih := forChildItems_eq_appendRecursed env recurse item lastResourceTypeName rest
    rw [forChildItems]
    cases h1 : ignoredBySuffix childItem.ID resourceIDIgnoreSuffices
    · cases h2 : ignoredByEndpoint env childItem.ID
          ((endpointsToIgnore.lookup (contextTypeName item lastResourceTypeName)).getD [])
      · have hr : retained env (contextTypeName item lastResourceTypeName) childItem = true := by
          rw [retained_eq, h1, h2]
          rfl
        simp only [h2, Bool.false_eq_true, if_false, List.filter_cons_of_pos hr, appendRecursed]
        cases hrec : recurse e childItem with
        | none => rfl
        | some p =>
          obtain ⟨result, e1⟩ := p
          simp only
          cases result.Err with
          | none => exact ih _ _
          | some err => exact ih _ _
      · have hr : ¬ (retained env (contextTypeName item lastResourceTypeName) childItem = true) := by
          rw [retained_eq, h1, h2]
          decide
        simp only [h2, Bool.false_eq_true, if_false, if_true, List.filter_cons_of_neg hr]
        exact ih _ _
    · have hr : ¬ (retained env (contextTypeName item lastResourceTypeName) childItem = true) := by
        rw [retained_eq, h1]
        simp
      simp only [if_true, List.filter_cons_of_neg hr]
      exact ih _ _

/-- C8: the loop of the crawl recurses into exactly the children that are retained, in
the order of the enumeration and before anything is done with the child: a child is
retained if and only if its identifier ends with none of the global suffixes and matches
none of the ignore templates registered for the context type name, and a child whose
identifier ends with a global suffix is left out for every context type name. -/
theorem crawl_recurses_into_retained (env : Env) :
    (∀ (depth : Nat) (e : TerraformImportExpander) (item : TreeNode)
        (lastResourceTypeName : String),
      getTerraformForNodeRecursive env (depth + 1) e item lastResourceTypeName =
        match getTerraformForNode env e item with
        | none => none
        | some (own, item1, e1) =>
          match env.ExpandItemAllowDefaultExpander item1 with
          | .error err =>
            some (terraformResult
              (ownFragment own ++ "\n#Error expanding " ++ env.Quote item1.ID ++ ": " ++ err), e1)
          | .ok childItems =>
            (appendRecursed
              (fun e2 child => getTerraformForNodeRecursive env depth e2 child lastResourceTypeName)
              (ownFragment own) e1
              (childItems.filter
                (retained env (contextTypeName item1 lastResourceTypeName)))).map
              (fun p => (terraformResult p.1, p.2))) ∧
    (∀ (context : String) (child : TreeNode),
      retained env context child = true ↔
        (∀ suffix ∈ resourceIDIgnoreSuffices, HasSuffix child.ID suffix = false) ∧
        (∀ ignoreEndpoint ∈ (endpointsToIgnore.lookup context).getD [],
          (env.Match ignoreEndpoint child.ID).IsMatch = false)) ∧
    (∀ (context : String) (child : TreeNode) (suffix : String),
      suffix ∈ resourceIDIgnoreSuffices → HasSuffix child.ID suffix = true →
      retained env context child = false) ∧
    resourceIDIgnoreSuffices.length = 5 := by
  refine ⟨?_, ?_, ?_, rfl⟩
  · intro depth e item lastResourceTypeName
    rw [getTerraformForNodeRecursive]
    cases hown : getTerraformForNode env e item with
    | none => rfl
    | some p =>
      obtain ⟨own, item1, e1⟩ := p
      simp only
      cases hexp : env.ExpandItemAllowDefaultExpander item1 with
      | error err => rfl
      | ok childItems =>
        simp only [forChildItems_eq_appendRecursed]
        cases appendRecursed
          (fun e2 child => getTerraformForNodeRecursive env depth e2 child lastResourceTypeName)
          (ownFragment own) e1
          (childItems.filter (retained env (contextTypeName item1 lastResourceTypeName))) with
        | none => rfl
        | some q => rfl
  · intro context child
    simp only [retained, Bool.and_eq_true, Bool.not_eq_true_eq_eq_false, Bool.not_eq_eq_eq_not,
      Bool.not_true, List.any_eq_false]
    constructor
    · rintro ⟨h1, h2⟩
      exact ⟨fun suffix hs => by simpa using h1 suffix hs, fun ep hep => by simpa using h2 ep hep⟩
    · rintro ⟨h1, h2⟩
      exact ⟨fun suffix hs => by simp [h1 suffix hs], fun ep hep => by simp [h2 ep hep]⟩
  · intro context child suffix hs hsuf
    have : resourceIDIgnoreSuffices.any (fun suffix => HasSuffix child.ID suffix) = true :=
      List.any_eq_true.2 ⟨suffix, hs, hsuf⟩
    simp [retained, this]

theorem ownFragment_eq (own : ExpanderResult) : ownFragment own = inlineFragment own := by
  unfold ownFragment inlineFragment
  cases own.Err <;> simp

theorem foldl_append_eq (fragments : List String) :
    ∀ (text : String),
      fragments.foldl (fun t fragment => t ++ fragment) text =
        text ++ fragments.foldl (fun t fragment => t ++ fragment) ""
  := by
  induction fragments with
  | nil => intro text; simp
  | cons f fs ih =>
    intro text
    rw [List.foldl_cons, List.foldl_cons, ih (text ++ f), ih ("" ++ f), String.empty_append,
      String.append_assoc]

theorem crawl_unfold_succ (env : Env) (depth : Nat) (e : TerraformImportExpander)
    (item : TreeNode) (lastResourceTypeName : String) :
    getTerraformForNodeRecursive env (depth + 1) e item lastResourceTypeName =
      match getTerraformForNode env e item with
      | none => none
      | some (own, item1, e1) =>
        match env.ExpandItemAllowDefaultExpander item1 with
        | .error err =>
          some (terraformResult
            (inlineFragment own ++ "\n#Error expanding " ++ env.Quote item1.ID ++ ": " ++ err), e1)
        | .ok childItems =>
          (appendRecursed
            (fun e2 child => getTerraformForNodeRecursive env depth e2 child lastResourceTypeName)
            (inlineFragment own) e1
            (childItems.filter
              (retained env (contextTypeName item1 lastResourceTypeName)))).map
            (fun p => (terraformResult p.1, p.2)) := by
  rw [getTerraformForNodeRecursive]
  cases hown : getTerraformForNode env e item with
  | none => rfl
  | some p =>
    obtain ⟨own, item1, e1⟩ := p
    simp only [ownFragment_eq]
    cases hexp : env.ExpandItemAllowDefaultExpander item1 with
    | error err => rfl
    | ok childItems =>
      simp only [forChildItems_eq_appendRecursed]
      cases appendRecursed
        (fun e2 child => getTerraformForNodeRecursive env depth e2 child lastResourceTypeName)
        (inlineFragment own) e1
        (childItems.filter (retained env (contextTypeName item1 lastResourceTypeName))) with
      | none => rfl
      | some q => rfl

theorem crawl_unfold_zero (env : Env) (e : TerraformImportExpander)
    (item : TreeNode) (lastResourceTypeName : String) :
    getTerraformForNodeRecursive env 0 e item lastResourceTypeName =
      match getTerraformForNode env e item with
      | none => none
      | some (own, _, e1) => some (terraformResult (inlineFragment own), e1) := by
  rw [getTerraformForNodeRecursive]
  cases hown : getTerraformForNode env e item with
  | none => rfl
  | some p =>
    obtain ⟨own, item1, e1⟩ := p
    simp only [ownFragment_eq]

/-- The crawl never returns a terminal error. -/
theorem crawl_err_none (env : Env) (depth : Nat) (e : TerraformImportExpander)
    (item : TreeNode) (lastResourceTypeName : String) (r : ExpanderResult)
    (e2 : TerraformImportExpander)
    (h : getTerraformForNodeRecursive env depth e item lastResourceTypeName = some (r, e2)) :
    r.Err = none := by
  cases depth with
  | zero =>
    rw [crawl_unfold_zero] at h
    cases hown : getTerraformForNode env e item with
    | none => simp [hown] at h
    | some p =>
      obtain ⟨own, item1, e1⟩ := p
      simp only [hown, Option.some.injEq, Prod.mk.injEq] at h
      rw [← h.1]
      rfl
  | succ d =>
    rw [crawl_unfold_succ] at h
    cases hown : getTerraformForNode env e item with
    | none => simp [hown] at h
    | some p =>
      obtain ⟨own, item1, e1⟩ := p
      simp only [hown] at h
      cases hexp : env.ExpandItemAllowDefaultExpander item1 with
      | error err =>
        simp only [hexp, Option.some.injEq, Prod.mk.injEq] at h
        rw [← h.1]
        rfl
      | ok childItems =>
        simp only [hexp, Option.map_eq_some', Prod.mk.injEq] at h
        obtain ⟨q, _, hq, _⟩ := h
        rw [← hq]
        rfl

/-- What the loop appends when no recursive call returns a terminal error: one fragment
per child, the response of the recursive call on it. -/
theorem appendRecursed_fragments
    (recurse : TerraformImportExpander → TreeNode → Option (ExpanderResult × TerraformImportExpander))
    (hErr : ∀ e c r e2, recurse e c = some (r, e2) → r.Err = none) :
    ∀ (children : List TreeNode) (text : String) (e : TerraformImportExpander) (out : String)
      (e3 : TerraformImportExpander),
      appendRecursed recurse text e children = some (out, e3) →
      ∃ fragments : List String,
        List.Forall₂ (fun child fragment =>
          ∃ e1 e2 r, recurse e1 child = some (r, e2) ∧ r.Response = fragment) children fragments ∧
        out = fragments.foldl (fun t fragment => t ++ fragment) text
  | [], text, e, out, e3, h => by
    simp only [appendRecursed, Option.some.injEq, Prod.mk.injEq] at h
    exact ⟨[], List.Forall₂.nil, by simp [h.1]⟩
  | child :: rest, text, e, out, e3, h => by
    rw [appendRecursed] at h
    cases hrec : recurse e child with
    | none => simp [hrec] at h
    | some p =>
      obtain ⟨r, e1⟩ := p
      have hnone := hErr e child r e1 hrec
      simp only [hrec, hnone] at h
      obtain ⟨fragments, hall, hout⟩ := appendRecursed_fragments recurse hErr rest _ e1 out e3 h
      exact ⟨r.Response :: fragments, List.Forall₂.cons ⟨e, e1, r, hrec, rfl⟩ hall, by
        rw [List.foldl_cons, hout]⟩

theorem appendRecursed_returns
    (recurse : TerraformImportExpander → TreeNode → Option (ExpanderResult × TerraformImportExpander))
    (Inv : TerraformImportExpander → Prop)
    (hrec : ∀ e c, Inv e → ∃ r e1, recurse e c = some (r, e1) ∧ Inv e1) :
    ∀ (children : List TreeNode) (text : String) (e : TerraformImportExpander), Inv e →
      ∃ out e1, appendRecursed recurse text e children = some (out, e1) ∧ Inv e1
  | [], text, e, hinv => ⟨text, e, rfl, hinv⟩
  | child :: rest, text, e, hinv => by
    obtain ⟨r, e1, hr, hinv1⟩ := hrec e child hinv
    rw [appendRecursed, hr]
    simp only
    cases r.Err with
    | none => exact appendRecursed_returns recurse Inv hrec rest _ e1 hinv1
    | some err => exact appendRecursed_returns recurse Inv hrec rest _ e1 hinv1

theorem ensureTfProviderInitialized_spec (env : Env) (e : TerraformImportExpander)
    (hinv : ExpanderReturns env e) :
    ExpanderReturns env (ensureTfProviderInitialized env e).2 ∧
    ((ensureTfProviderInitialized env e).1 = none →
      ∃ p, (ensureTfProviderInitialized env e).2.tfProvider = some p) := by
  unfold ensureTfProviderInitialized
  cases hp : e.tfProvider with
  | some p => exact ⟨hinv, fun _ => ⟨p, hp⟩⟩
  | none =>
    cases hs : env.SetupProvider with
    | error err => exact ⟨hinv, fun h => by simp at h⟩
    | ok p =>
      refine ⟨?_, fun _ => ⟨p, rfl⟩⟩
      intro q hq
      exact hinv q (Or.inr (by
        rcases hq with hq | hq
        · simp only [Option.some.injEq] at hq
          rw [← hq, hs]
        · exact hq))

theorem getTerraformForResolved_returns (env : Env) (e : TerraformImportExpander)
    (item : TreeNode) (resourceTypeName : String) (p : TerraformProvider)
    (hp : e.tfProvider = some p) (hret : ProviderReturns env p) :
    ∃ r, getTerraformForResolved env e item resourceTypeName = some r := by
  unfold getTerraformForResolved
  by_cases h1 : resourceTypeName = ""
  · exact ⟨_, if_pos h1⟩
  · rw [if_neg h1]
    cases tfimportBaseConfig.lookup resourceTypeName with
    | none => exact ⟨_, rfl⟩
    | some endpoint =>
      dsimp only
      by_cases h2 : (!(env.Match endpoint item.ID).IsMatch) = true
      · exact ⟨_, if_pos h2⟩
      · rw [if_neg h2]
        cases ((resourceIDOverrides env).lookup resourceTypeName).getD
            (defaultEndpointMatchTOResourceIDFunc env) endpoint
            (env.Match endpoint item.ID).Values with
        | error err => exact ⟨_, rfl⟩
        | ok id =>
          have h := hret resourceTypeName id
          unfold getTerraformFor
          rw [hp]
          dsimp only
          cases hr : readResources env p id "" (p.ImportResourceState resourceTypeName id) with
          | none => rw [hr] at h; exact absurd h (by decide)
          | some x =>
            cases x with
            | error err => exact ⟨_, rfl⟩
            | ok t => exact ⟨_, rfl⟩

/-- The pipeline of a node returns when the provider never makes the serializer panic. -/
theorem getTerraformForNode_returns (env : Env) (e : TerraformImportExpander) (item : TreeNode)
    (hinv : ExpanderReturns env e) :
    ∃ r item1 e1, getTerraformForNode env e item = some (r, item1, e1) ∧
      ExpanderReturns env e1 := by
  obtain ⟨hinv1, hsome⟩ := ensureTfProviderInitialized_spec env e hinv
  unfold getTerraformForNode
  rcases hi : ensureTfProviderInitialized env e with ⟨err?, e2⟩
  rw [hi] at hinv1 hsome
  cases err? with
  | some err => exact ⟨_, _, _, rfl, hinv1⟩
  | none =>
    obtain ⟨p, hp⟩ := hsome rfl
    have hret : ProviderReturns env p := hinv1 p (Or.inl hp)
    simp only
    split
    · cases hres : getResourceTypeNameFromResourceID env item.ID with
      | error err => exact ⟨_, _, _, rfl, hinv1⟩
      | ok name =>
        obtain ⟨r, hr⟩ := getTerraformForResolved_returns env (e2.noteResolve item.ID)
          { item with Metadata := mapSet item.Metadata resourceTypeNameKey name } name p hp hret
        simp only [hr, Option.map_some']
        exact ⟨_, _, _, rfl, hinv1⟩
    · obtain ⟨r, hr⟩ := getTerraformForResolved_returns env e2 item
        (mapGet item.Metadata resourceTypeNameKey) p hp hret
      simp only [hr, Option.map_some']
      exact ⟨_, _, _, rfl, hinv1⟩

/-- The crawl returns when the provider never makes the serializer panic. -/
theorem crawl_returns (env : Env) :
    ∀ (depth : Nat) (e : TerraformImportExpander) (item : TreeNode) (last : String),
      ExpanderReturns env e →
      ∃ r e1, getTerraformForNodeRecursive env depth e item last = some (r, e1) ∧
        ExpanderReturns env e1
  | 0, e, item, last, hinv => by
    obtain ⟨own, item1, e1, hown, hinv1⟩ := getTerraformForNode_returns env e item hinv
    rw [crawl_unfold_zero, hown]
    exact ⟨_, _, rfl, hinv1⟩
  | d + 1, e, item, last, hinv => by
    obtain ⟨own, item1, e1, hown, hinv1⟩ := getTerraformForNode_returns env e item hinv
    rw [crawl_unfold_succ, hown]
    simp only
    cases hexp : env.ExpandItemAllowDefaultExpander item1 with
    | error err => exact ⟨_, _, rfl, hinv1⟩
    | ok childItems =>
      obtain ⟨out, e2, hout, hinv2⟩ := appendRecursed_returns
        (fun e2 child => getTerraformForNodeRecursive env d e2 child last)
        (ExpanderReturns env) (fun e3 c h3 => crawl_returns env d e3 c last h3)
        (childItems.filter (retained env (contextTypeName item1 last))) (inlineFragment own) e1
        hinv1
      simp only [hout, Option.map_some']
      exact ⟨_, _, rfl, hinv2⟩

/-- The text of a crawl starts with the fragment of the node it was called on. -/
theorem crawl_starts_with_own (env : Env) (depth : Nat) (e : TerraformImportExpander)
    (item : TreeNode) (last : String) (r : ExpanderResult) (e3 : TerraformImportExpander)
    (h : getTerraformForNodeRecursive env depth e item last = some (r, e3)) :
    ∃ own item1 e1 tail, getTerraformForNode env e item = some (own, item1, e1) ∧
      r.Response = inlineFragment own ++ tail := by
  cases depth with
  | zero =>
    rw [crawl_unfold_zero] at h
    cases hown : getTerraformForNode env e item with
    | none => simp [hown] at h
    | some p =>
      obtain ⟨own, item1, e1⟩ := p
      simp only [hown, Option.some.injEq, Prod.mk.injEq] at h
      refine ⟨own, item1, e1, "", rfl, ?_⟩
      rw [← h.1]
      simp [terraformResult]
  | succ d =>
    rw [crawl_unfold_succ] at h
    cases hown : getTerraformForNode env e item with
    | none => simp [hown] at h
    | some p =>
      obtain ⟨own, item1, e1⟩ := p
      simp only [hown] at h
      cases hexp : env.ExpandItemAllowDefaultExpander item1 with
      | error err =>
        simp only [hexp, Option.some.injEq, Prod.mk.injEq] at h
        refine ⟨own, item1, e1, "\n#Error expanding " ++ env.Quote item1.ID ++ ": " ++ err, rfl, ?_⟩
        rw [← h.1]
        simp [terraformResult, String.append_assoc]
      | ok childItems =>
        simp only [hexp, Option.map_eq_some', Prod.mk.injEq] at h
        obtain ⟨q, hq, hr, _⟩ := h
        obtain ⟨out, e4⟩ := q
        obtain ⟨fragments, _, hout⟩ := appendRecursed_fragments _
          (fun e5 c r5 e6 h5 => crawl_err_none env d e5 c last r5 e6 h5) _ _ _ _ _ hq
        refine ⟨own, item1, e1, fragments.foldl (fun t fragment => t ++ fragment) "", rfl, ?_⟩
        rw [← hr]
        simp only [terraformResult]
        rw [hout, foldl_append_eq]

set_option maxRecDepth 1000000 in
/-- C7, refuted as stated: in the tree of the resource group `groupID` with the public IP
addresses `first`, `unnamed` and `later` as its children, all three retained, the
pipeline of the group and the crawl of `first` and of `later` return their output, but the
state read for `unnamed` has a null `name`: `AsString` panics at line 586, nothing recovers
it, and the crawl of the whole tree from the group, also when started by `ExecuteAction`,
returns no text at all: the output of the parent is lost and the later sibling is not
processed.  And the crawl of the public IP address `gone`, for which the import yields no
resource, returns the text of one newline: neither a serialized output nor an annotation
`#Error: ...`. -/
theorem crawl_aborts_on_null_name :
    unnamedEnv.ExpandItemAllowDefaultExpander
        { ID := groupID, Metadata := [(resourceTypeNameKey, "azurerm_resource_group")] } =
      .ok [{ ID := publicIPID "first", Metadata := [] },
           { ID := publicIPID "unnamed", Metadata := [] },
           { ID := publicIPID "later", Metadata := [] }] ∧
    [publicIPID "first", publicIPID "unnamed", publicIPID "later"].map
        (fun id => retained unnamedEnv "azurerm_resource_group" { ID := id, Metadata := [] }) =
      [true, true, true] ∧
    (getTerraformForNode unnamedEnv freshExpander groupNode).map (fun p => (p.1, p.2.1)) =
      some (terraformResult "resource azurerm_resource_group n [name,location]\n",
        { ID := groupID, Metadata := [(resourceTypeNameKey, "azurerm_resource_group")] }) ∧
    (getTerraformForNodeRecursive unnamedEnv 49 freshExpander
        { ID := publicIPID "first", Metadata := [] } "").map (fun p => p.1) =
      some (terraformResult "\nresource azurerm_public_ip n [name,location]\n") ∧
    (getTerraformForNodeRecursive unnamedEnv 49 freshExpander
        { ID := publicIPID "later", Metadata := [] } "").map (fun p => p.1) =
      some (terraformResult "\nresource azurerm_public_ip n [name,location]\n") ∧
    (unnamedProvider.ReadResource "azurerm_public_ip" (.str (publicIPID "unnamed"))).GetAttr "name" =
      some (.null .primitive) ∧
    printState unnamedEnv
        (unnamedProvider.ReadResource "azurerm_public_ip" (.str (publicIPID "unnamed")))
        "azurerm_public_ip" (unnamedProvider.ResourceTypes.lookup "azurerm_public_ip") = none ∧
    getTerraformForNode unnamedEnv freshExpander { ID := publicIPID "unnamed", Metadata := [] } =
      none ∧
    getTerraformForNodeRecursive unnamedEnv 50 freshExpander groupNode "" = none ∧
    ExecuteAction unnamedEnv freshExpander
        { ID := groupID ++ "?" ++ "GetTerraformRecursive",
          Metadata := [("ActionID", "GetTerraformRecursive"),
                       (resourceTypeNameKey, "azurerm_resource_group")] }
        { ID := groupID, Metadata := [(resourceTypeNameKey, "azurerm_resource_group")] } = none ∧
    unnamedProvider.ImportResourceState "azurerm_public_ip" (publicIPID "gone") = [] ∧
    (getTerraformForNodeRecursive unnamedEnv 50 freshExpander
        { ID := publicIPID "gone", Metadata := [] } "").map (fun p => p.1) =
      some (terraformResult "\n") :=
  ⟨rfl, rfl, rfl, rfl, rfl, rfl, rfl, rfl, rfl, rfl, rfl, rfl⟩

/-- C7, amended: the crawl returns whenever no state the provider reads makes the
serializer panic, and what it returns is a text without terminal error.  The text starts
with the fragment of the node itself: a newline and the output `getTerraformForNode`
returned, which is empty when the import yields no resource, or `#Error: ...` if
`getTerraformForNode` returned an error.  At depth 0 that is all; when
the enumeration of the children fails, the annotation `#Error expanding` follows; when it
succeeds, one fragment follows for every retained child, in the order of the enumeration,
each the text of the recursive crawl of that child, which itself starts with the fragment
of the child. -/
theorem crawl_contains_failures (env : Env) (depth : Nat) (e : TerraformImportExpander)
    (item : TreeNode) (last : String) :
    (ExpanderReturns env e →
      ∃ r e3, getTerraformForNodeRecursive env depth e item last = some (r, e3)) ∧
    ∀ r e3, getTerraformForNodeRecursive env depth e item last = some (r, e3) →
      r.Err = none ∧
      ∃ own item1 e1, getTerraformForNode env e item = some (own, item1, e1) ∧
        (depth = 0 → r.Response = inlineFragment own) ∧
        (0 < depth → ∀ err, env.ExpandItemAllowDefaultExpander item1 = .error err →
          r.Response =
            inlineFragment own ++ "\n#Error expanding " ++ env.Quote item1.ID ++ ": " ++ err) ∧
        (0 < depth → ∀ childItems, env.ExpandItemAllowDefaultExpander item1 = .ok childItems →
          ∃ fragments : List String,
            List.Forall₂ (fun child fragment =>
                ∃ e4 e5 r2 own2 item2 e6 tail,
                  getTerraformForNodeRecursive env (depth - 1) e4 child last = some (r2, e5) ∧
                  r2.Err = none ∧ r2.Response = fragment ∧
                  getTerraformForNode env e4 child = some (own2, item2, e6) ∧
                  fragment = inlineFragment own2 ++ tail)
              (childItems.filter (retained env (contextTypeName item1 last))) fragments ∧
            r.Response =
              fragments.foldl (fun text fragment => text ++ fragment) (inlineFragment own)) := by
  refine ⟨fun hinv => ?_, ?_⟩
  · obtain ⟨r, e3, h, _⟩ := crawl_returns env depth e item last hinv
    exact ⟨r, e3, h⟩
  intro r e3 h
  refine ⟨crawl_err_none env depth e item last r e3 h, ?_⟩
  cases depth with
  | zero =>
    rw [crawl_unfold_zero] at h
    cases hown : getTerraformForNode env e item with
    | none => simp [hown] at h
    | some p =>
      obtain ⟨own, item1, e1⟩ := p
      simp only [hown, Option.some.injEq, Prod.mk.injEq] at h
      refine ⟨own, item1, e1, rfl, ?_, ?_, ?_⟩
      · intro _
        rw [← h.1]
        rfl
      · intro hd
        exact absurd hd (by decide)
      · intro hd
        exact absurd hd (by decide)
  | succ d =>
    rw [crawl_unfold_succ] at h
    cases hown : getTerraformForNode env e item with
    | none => simp [hown] at h
    | some p =>
      obtain ⟨own, item1, e1⟩ := p
      simp only [hown] at h
      refine ⟨own, item1, e1, rfl, ?_, ?_, ?_⟩
      · intro hd
        exact absurd hd (by simp)
      · intro _ err hexp
        simp only [hexp, Option.some.injEq, Prod.mk.injEq] at h
        rw [← h.1]
        rfl
      · intro _ childItems hexp
        simp only [hexp, Option.map_eq_some', Prod.mk.injEq] at h
        obtain ⟨q, hq, hr, _⟩ := h
        obtain ⟨out, e4⟩ := q
        obtain ⟨fragments, hall, hout⟩ := appendRecursed_fragments _
          (fun e5 c r5 e6 h5 => crawl_err_none env d e5 c last r5 e6 h5) _ _ _ _ _ hq
        refine ⟨fragments, ?_, ?_⟩
        · refine hall.imp ?_
          rintro child fragment ⟨e5, e6, r2, hrec, hresp⟩
          obtain ⟨own2, item2, e7, tail, hown2, htail⟩ :=
            crawl_starts_with_own env d e5 child last r2 e6 hrec
          exact ⟨e5, e6, r2, own2, item2, e7, tail, hrec,
            crawl_err_none env d e5 child last r2 e6 hrec, hresp, hown2, hresp ▸ htail⟩
        · rw [← hr]
          exact hout

theorem sampleProvider_returns : ProviderReturns sampleEnv sampleProvider := by
  intro typeName id
  by_cases h : typeName = "azurerm_storage_container"
  · subst h
    rfl
  · simp [readResources, sampleProvider, h, Value.IsNull]

theorem freshExpander_returns : ExpanderReturns sampleEnv freshExpander := by
  intro p hp
  rcases hp with hp | hp
  · simp [freshExpander] at hp
  · have : sampleProvider = p := by
      simpa [sampleEnv] using hp
    rw [← this]
    exact sampleProvider_returns

set_option maxRecDepth 1000000 in
/-- The sample of the amended C7: the crawl of the sample tree.  The pipeline of `/folder` and of the
blob below it fail and the blob cannot be expanded; the text still starts with the output
of the container, and holds one annotation for each failure. -/
theorem crawl_contains_failures_witness :
    ExpanderReturns sampleEnv freshExpander ∧
    (∃ r e3, getTerraformForNodeRecursive sampleEnv 50 freshExpander sampleRoot "" = some (r, e3)) ∧
    getTerraformForNodeRecursive sampleEnv 50 freshExpander sampleRoot "" =
      some (terraformResult sampleCrawlText, sampleExpanderAfter) ∧
    (terraformResult sampleCrawlText).Err = none ∧
    ∃ own item1 e1, getTerraformForNode sampleEnv freshExpander sampleRoot = some (own, item1, e1) ∧
      (50 = 0 → (terraformResult sampleCrawlText).Response = inlineFragment own) ∧
      (0 < 50 → ∀ err, sampleEnv.ExpandItemAllowDefaultExpander item1 = .error err →
        (terraformResult sampleCrawlText).Response =
          inlineFragment own ++ "\n#Error expanding " ++ sampleEnv.Quote item1.ID ++ ": " ++ err) ∧
      (0 < 50 → ∀ childItems, sampleEnv.ExpandItemAllowDefaultExpander item1 = .ok childItems →
        ∃ fragments : List String,
          List.Forall₂ (fun child fragment =>
              ∃ e4 e5 r2 own2 item2 e6 tail,
                getTerraformForNodeRecursive sampleEnv (50 - 1) e4 child "" = some (r2, e5) ∧
                r2.Err = none ∧ r2.Response = fragment ∧
                getTerraformForNode sampleEnv e4 child = some (own2, item2, e6) ∧
                fragment = inlineFragment own2 ++ tail)
            (childItems.filter (retained sampleEnv (contextTypeName item1 ""))) fragments ∧
          (terraformResult sampleCrawlText).Response =
            fragments.foldl (fun text fragment => text ++ fragment) (inlineFragment own)) :=
  ⟨freshExpander_returns,
   (crawl_contains_failures sampleEnv 50 freshExpander sampleRoot "").1 freshExpander_returns,
   rfl, (crawl_contains_failures sampleEnv 50 freshExpander sampleRoot "").2 _ _ rfl⟩

set_option maxRecDepth 1000000 in
/-- C4: in the crawl of the sample tree started by `ExecuteAction`, the container resolves
to `azurerm_storage_container` and its child `/folder` resolves to nothing; the blob listed
below `/folder` matches the ignore template registered for `azurerm_storage_container`,
yet the children of `/folder` are filtered with the context type name `""`, which has no
templates, and the blob is processed: the resolver is called on it and its annotations are
in the text. -/
theorem crawl_fallback_context_stays_empty :
    getResourceTypeNameFromResourceID sampleEnv containerID = .ok "azurerm_storage_container" ∧
    getResourceTypeNameFromResourceID sampleEnv "/folder" = .ok "" ∧
    sampleEnv.ExpandItemAllowDefaultExpander { ID := "/folder", Metadata := [] } = .ok [sampleBlob] ∧
    retained sampleEnv "azurerm_storage_container" sampleBlob = false ∧
    retained sampleEnv "" sampleBlob = true ∧
    (ExecuteAction sampleEnv freshExpander sampleAction sampleRootCached).map
        (fun p => (p.1.Response, p.2.resolveCalls)) =
      some (sampleCrawlText, ["/folder", containerID ++ "/blob2"]) :=
  ⟨rfl, rfl, rfl, rfl, rfl, rfl⟩

/-! ## The cache of the resolved type name -/

theorem mapGet_mapSet (m : List (String × String)) (key value : String) :
    mapGet (mapSet m key value) key = value := by
  simp [mapGet, mapSet, List.lookup_cons]

/-- C6, refuted as stated: `HasActions` on the container writes
`azurerm_storage_container` to the cache of the node, and a second `HasActions` on that
node calls the resolver again; `getTerraformForNode` on `/folder` writes the empty name it
resolved, and a second `getTerraformForNode` on that node calls the resolver again. -/
theorem resolution_is_repeated :
    (HasActions sampleEnv freshExpander sampleRoot).1 = .ok true ∧
    mapGet (HasActions sampleEnv freshExpander sampleRoot).2.1.Metadata resourceTypeNameKey =
      "azurerm_storage_container" ∧
    (HasActions sampleEnv (HasActions sampleEnv freshExpander sampleRoot).2.2
        (HasActions sampleEnv freshExpander sampleRoot).2.1).2.2.resolveCalls =
      [containerID, containerID] ∧
    (getTerraformForNode sampleEnv freshExpander { ID := "/folder", Metadata := [] }).map
        (fun p => (p.2.1.Metadata, p.2.2.resolveCalls)) =
      some ([(resourceTypeNameKey, "")], ["/folder"]) ∧
    (getTerraformForNode sampleEnv freshExpander { ID := "/folder", Metadata := [] }).bind
        (fun p => (getTerraformForNode sampleEnv p.2.2 p.2.1).map (fun q => q.2.2.resolveCalls)) =
      some ["/folder", "/folder"] :=
  ⟨rfl, rfl, rfl, rfl, rfl⟩

theorem ensureTfProviderInitialized_resolveCalls (env : Env) (e : TerraformImportExpander) :
    (ensureTfProviderInitialized env e).2.resolveCalls = e.resolveCalls := by
  unfold ensureTfProviderInitialized
  cases e.tfProvider with
  | some p => rfl
  | none => cases env.SetupProvider <;> rfl

/-- With a non-empty name in the cache, `getTerraformForNode` reads it, does not call the
resolver and leaves the node as it is. -/
theorem getTerraformForNode_cached (env : Env) (e : TerraformImportExpander) (item : TreeNode)
    (hc : mapGet item.Metadata resourceTypeNameKey ≠ "")
    (r : ExpanderResult) (item1 : TreeNode) (e1 : TerraformImportExpander)
    (h : getTerraformForNode env e item = some (r, item1, e1)) :
    e1.resolveCalls = e.resolveCalls ∧ item1 = item ∧
    ((ensureTfProviderInitialized env e).1 = none →
      getTerraformForResolved env e1 item (mapGet item.Metadata resourceTypeNameKey) = some r) := by
  unfold getTerraformForNode at h
  have hens := ensureTfProviderInitialized_resolveCalls env e
  rcases hi : ensureTfProviderInitialized env e with ⟨err?, e2⟩
  rw [hi] at hens h
  cases err? with
  | some err =>
    simp only [Option.some.injEq, Prod.mk.injEq] at h
    exact ⟨h.2.2 ▸ hens, h.2.1.symm, fun hnone => by simp at hnone⟩
  | none =>
    simp only [hc, if_false, Option.map_eq_some', Prod.mk.injEq] at h
    obtain ⟨result, hres, h1, h2, h3⟩ := h
    refine ⟨h3 ▸ hens, h2.symm, fun _ => ?_⟩
    rw [← h3, ← h1]
    exact hres

/-- With an empty name in the cache and the provider initialised, `getTerraformForNode`
calls the resolver and writes the name it resolved to the cache of the node. -/
theorem getTerraformForNode_stores (env : Env) (e : TerraformImportExpander) (item : TreeNode)
    (hc : mapGet item.Metadata resourceTypeNameKey = "")
    (hinit : (ensureTfProviderInitialized env e).1 = none)
    (name : String) (hname : getResourceTypeNameFromResourceID env item.ID = .ok name)
    (r : ExpanderResult) (item1 : TreeNode) (e1 : TerraformImportExpander)
    (h : getTerraformForNode env e item = some (r, item1, e1)) :
    e1.resolveCalls = e.resolveCalls ++ [item.ID] ∧ item1.ID = item.ID ∧
    mapGet item1.Metadata resourceTypeNameKey = name := by
  unfold getTerraformForNode at h
  have hens := ensureTfProviderInitialized_resolveCalls env e
  rcases hi : ensureTfProviderInitialized env e with ⟨err?, e2⟩
  rw [hi] at hens h hinit
  simp only at hinit
  subst hinit
  simp only [hc, if_true, hname, Option.map_eq_some', Prod.mk.injEq] at h
  obtain ⟨result, _, _, h2, h3⟩ := h
  refine ⟨?_, ?_, ?_⟩
  · rw [← h3, ← hens]
    rfl
  · rw [← h2]
  · rw [← h2]
    exact mapGet_mapSet _ _ _

/-- C6, amended: a `HasActions` call that resolves a non-empty type name, and a
`getTerraformForNode` call that resolves one with the provider initialised, write it to
the cache of the node; while a non-empty name is cached, every `getTerraformForNode` call
on the node reads the cached name, does not call the resolver and leaves the node as it
is, so that after a call that cached a non-empty name no later `getTerraformForNode` call
resolves again.  `HasActions` calls the resolver on every call, and `getTerraformForNode`
calls it again while the cached name is empty. -/
theorem cached_type_name_is_reused (env : Env) (e : TerraformImportExpander) (item : TreeNode) :
    (mapGet item.Metadata resourceTypeNameKey ≠ "" →
      ∀ r item1 e1, getTerraformForNode env e item = some (r, item1, e1) →
        e1.resolveCalls = e.resolveCalls ∧ item1 = item ∧
        ((ensureTfProviderInitialized env e).1 = none →
          getTerraformForResolved env e1 item (mapGet item.Metadata resourceTypeNameKey) =
            some r)) ∧
    (HasActions env e item).2.2.resolveCalls = e.resolveCalls ++ [item.ID] ∧
    ((HasActions env e item).1 = .ok true →
      mapGet (HasActions env e item).2.1.Metadata resourceTypeNameKey ≠ "") ∧
    (∀ name, getResourceTypeNameFromResourceID env item.ID = .ok name → name ≠ "" →
      (HasActions env e item).1 = .ok true ∧
      (HasActions env e item).2.1.ID = item.ID ∧
      mapGet (HasActions env e item).2.1.Metadata resourceTypeNameKey = name ∧
      ∀ e2 r2 item2 e3,
        getTerraformForNode env e2 (HasActions env e item).2.1 = some (r2, item2, e3) →
          e3.resolveCalls = e2.resolveCalls ∧ item2 = (HasActions env e item).2.1) ∧
    (mapGet item.Metadata resourceTypeNameKey = "" → e.tfProvider.isSome = true →
      ∀ r item1 e1, getTerraformForNode env e item = some (r, item1, e1) →
        e1.resolveCalls = e.resolveCalls ++ [item.ID]) ∧
    (mapGet item.Metadata resourceTypeNameKey = "" →
      (ensureTfProviderInitialized env e).1 = none →
      ∀ name, getResourceTypeNameFromResourceID env item.ID = .ok name →
      ∀ r item1 e1, getTerraformForNode env e item = some (r, item1, e1) →
        e1.resolveCalls = e.resolveCalls ++ [item.ID] ∧ item1.ID = item.ID ∧
        mapGet item1.Metadata resourceTypeNameKey = name ∧
        (name ≠ "" →
          ∀ e2 r2 item2 e3, getTerraformForNode env e2 item1 = some (r2, item2, e3) →
            e3.resolveCalls = e2.resolveCalls ∧ item2 = item1)) := by
  refine ⟨?_, ?_, ?_, ?_, ?_, ?_⟩
  · intro hc r item1 e1 h
    exact getTerraformForNode_cached env e item hc r item1 e1 h
  · unfold HasActions
    cases getResourceTypeNameFromResourceID env item.ID with
    | error err => rfl
    | ok name =>
      by_cases hn : name = ""
      · simp [hn, TerraformImportExpander.noteResolve]
      · simp [hn, TerraformImportExpander.noteResolve]
  · unfold HasActions
    cases getResourceTypeNameFromResourceID env item.ID with
    | error err => intro h; simp at h
    | ok name =>
      by_cases hn : name = ""
      · simp [hn]
      · simp [hn, mapGet_mapSet]
  · intro name hname hn
    have hstore : (HasActions env e item).1 = .ok true ∧
        (HasActions env e item).2.1.ID = item.ID ∧
        mapGet (HasActions env e item).2.1.Metadata resourceTypeNameKey = name := by
      unfold HasActions
      simp only [hname, hn, if_false, mapGet_mapSet, and_self]
    refine ⟨hstore.1, hstore.2.1, hstore.2.2, ?_⟩
    intro e2 r2 item2 e3 h4
    obtain ⟨h5, h6, _⟩ := getTerraformForNode_cached env e2 (HasActions env e item).2.1
      (by rw [hstore.2.2]; exact hn) r2 item2 e3 h4
    exact ⟨h5, h6⟩
  · intro hc hp r item1 e1 h
    unfold getTerraformForNode at h
    have hi : ensureTfProviderInitialized env e = (none, e) := by
      unfold ensureTfProviderInitialized
      cases hq : e.tfProvider with
      | some p => rfl
      | none => simp [hq] at hp
    rw [hi] at h
    simp only [hc, if_true] at h
    cases hres : getResourceTypeNameFromResourceID env item.ID with
    | error err =>
      simp only [hres, Option.some.injEq, Prod.mk.injEq] at h
      rw [← h.2.2]
      rfl
    | ok name =>
      simp only [hres, Option.map_eq_some', Prod.mk.injEq] at h
      obtain ⟨_, _, _, _, h3⟩ := h
      rw [← h3]
      rfl
  · intro hc hinit name hname r item1 e1 h
    obtain ⟨h1, h2, h3⟩ := getTerraformForNode_stores env e item hc hinit name hname r item1 e1 h
    refine ⟨h1, h2, h3, ?_⟩
    intro hn e2 r2 item2 e3 h4
    obtain ⟨h5, h6, _⟩ := getTerraformForNode_cached env e2 item1 (by rw [h3]; exact hn)
      r2 item2 e3 h4
    exact ⟨h5, h6⟩

set_option maxRecDepth 1000000 in
/-- The sample of the amended C6: on the container node with its type name cached,
`getTerraformForNode` succeeds without calling the resolver; on the container node with
an empty cache it calls the resolver once and caches `azurerm_storage_container`, and a
second call on the node it leaves does not resolve again; `HasActions` on the container
node with an empty cache answers true and caches the same name. -/
theorem cached_type_name_is_reused_witness :
    mapGet sampleRootCached.Metadata resourceTypeNameKey ≠ "" ∧
    (getTerraformForNode sampleEnv freshExpander sampleRootCached).map (fun p => p.1.Err) =
      some none ∧
    (∀ r item1 e1, getTerraformForNode sampleEnv freshExpander sampleRootCached =
        some (r, item1, e1) →
      e1.resolveCalls = freshExpander.resolveCalls ∧ item1 = sampleRootCached ∧
      ((ensureTfProviderInitialized sampleEnv freshExpander).1 = none →
        getTerraformForResolved sampleEnv e1 sampleRootCached
          (mapGet sampleRootCached.Metadata resourceTypeNameKey) = some r)) ∧
    (getTerraformForNode sampleEnv freshExpander sampleRoot).map
        (fun p => (p.1.Err, p.2.1, p.2.2.resolveCalls)) =
      some (none, sampleRootCached, [containerID]) ∧
    (∀ r item1 e1, getTerraformForNode sampleEnv freshExpander sampleRoot = some (r, item1, e1) →
      e1.resolveCalls = freshExpander.resolveCalls ++ [sampleRoot.ID] ∧
      item1.ID = sampleRoot.ID ∧
      mapGet item1.Metadata resourceTypeNameKey = "azurerm_storage_container" ∧
      ("azurerm_storage_container" ≠ "" →
        ∀ e2 r2 item2 e3, getTerraformForNode sampleEnv e2 item1 = some (r2, item2, e3) →
          e3.resolveCalls = e2.resolveCalls ∧ item2 = item1)) ∧
    (getTerraformForNode sampleEnv freshExpander sampleRoot).bind
        (fun p => (getTerraformForNode sampleEnv p.2.2 p.2.1).map
          (fun q => q.2.2.resolveCalls)) =
      some [containerID] ∧
    (HasActions sampleEnv freshExpander sampleRoot).1 = .ok true ∧
    (HasActions sampleEnv freshExpander sampleRoot).2.1 = sampleRootCached :=
  ⟨by decide, rfl,
   (cached_type_name_is_reused sampleEnv freshExpander sampleRootCached).1 (by decide),
   rfl,
   (cached_type_name_is_reused sampleEnv freshExpander sampleRoot).2.2.2.2.2 rfl rfl
     "azurerm_storage_container" rfl,
   rfl, rfl, rfl⟩

/-! ## The identifier handed to the import (`resourceIDOverrides`) -/

theorem containerTemplate_segments :
    templateSegments (MustGetEndpointInfoFromURL "/{containerName}" "").TemplateURL =
      [.literal [], .placeholder "containerName".data] := by
  decide

/-- What `build` of the specification makes of the template `/{containerName}`. -/
theorem specBuildURL_container (values : List (String × String)) :
    specBuildURL (MustGetEndpointInfoFromURL "/{containerName}" "") values =
      match values.lookup "containerName" with
      | some containerName => .ok ("/" ++ containerName)
      | none => .error ("no value for " ++ "containerName") := by
  unfold specBuildURL
  rw [containerTemplate_segments]
  simp only [buildSegments]
  cases values.lookup "containerName" with
  | none => rfl
  | some c =>
    simp only [List.intercalate, List.intersperse, List.flatten, List.append_nil, List.nil_append]
    congr 1

theorem blob_url_eq (accountName containerName : String) :
    "https://" ++ accountName ++ ".blob.core.windows.net" ++ ("/" ++ containerName) =
      "https://" ++ accountName ++ ".blob.core.windows.net/" ++ containerName := by
  apply String.ext
  simp [String.data_append]

/-- C11: the override registered for `azurerm_storage_container` fails when `accountName`
is not captured, whatever the template registry does, and puts the captured account name
in front of the path `BuildURL` makes of `/{containerName}`.  On the template registry of
the specification it returns `https://<accountName>.blob.core.windows.net/<containerName>`
when both values are captured, and an error when one of them is missing. -/
theorem storageContainerResourceID_spec (env : Env) (matchingEndpoint : EndpointInfo)
    (matchValues : List (String × String)) :
    (resourceIDOverrides env).lookup "azurerm_storage_container" =
      some (storageContainerResourceID env) ∧
    (matchValues.lookup "accountName" = none →
      ∃ err, storageContainerResourceID env matchingEndpoint matchValues = .error err) ∧
    (∀ overriddenEndpoint path accountName,
      env.GetEndpointInfoFromURL "/{containerName}" "" = .ok overriddenEndpoint →
      env.BuildURL overriddenEndpoint matchValues = .ok path →
      matchValues.lookup "accountName" = some accountName →
      storageContainerResourceID env matchingEndpoint matchValues =
        .ok ("https://" ++ accountName ++ ".blob.core.windows.net" ++ path)) ∧
    (env.GetEndpointInfoFromURL "/{containerName}" "" =
        .ok (MustGetEndpointInfoFromURL "/{containerName}" "") →
      env.BuildURL = specBuildURL →
      (∀ accountName containerName,
        matchValues.lookup "accountName" = some accountName →
        matchValues.lookup "containerName" = some containerName →
        storageContainerResourceID env matchingEndpoint matchValues =
          .ok ("https://" ++ accountName ++ ".blob.core.windows.net/" ++ containerName)) ∧
      ((matchValues.lookup "accountName" = none ∨ matchValues.lookup "containerName" = none) →
        ∃ err, storageContainerResourceID env matchingEndpoint matchValues = .error err)) := by
  refine ⟨rfl, ?_, ?_, ?_⟩
  · intro hacc
    cases hG : env.GetEndpointInfoFromURL "/{containerName}" "" with
    | error err => exact ⟨err, by simp only [storageContainerResourceID, hG]⟩
    | ok ep =>
      cases hB : env.BuildURL ep matchValues with
      | error err => exact ⟨err, by simp only [storageContainerResourceID, hG, hB]⟩
      | ok path =>
        exact ⟨"accountName not found in match values", by
          simp only [storageContainerResourceID, hG, hB, hacc]⟩
  · intro ep path accountName hG hB hacc
    simp only [storageContainerResourceID, hG, hB, hacc]
  · intro hG hB
    constructor
    · intro accountName containerName hacc hcont
      simp only [storageContainerResourceID, hG, hB, specBuildURL_container, hcont, hacc,
        blob_url_eq]
    · intro hmiss
      cases hcont : matchValues.lookup "containerName" with
      | none =>
        exact ⟨"no value for " ++ "containerName", by
          simp only [storageContainerResourceID, hG, hB, specBuildURL_container, hcont]⟩
      | some c =>
        rcases hmiss with hacc | hc
        · exact ⟨"accountName not found in match values", by
            simp only [storageContainerResourceID, hG, hB, specBuildURL_container, hcont, hacc]⟩
        · rw [hcont] at hc
          exact absurd hc (by simp)

set_option maxRecDepth 1000000 in
/-- The sample of C11: the identifier of the container `C` of the account `A` matches the
template of `azurerm_storage_container`, and the override makes
`https://A.blob.core.windows.net/C` of the captured values; without the account name, and
without the container name, it fails. -/
theorem storageContainerResourceID_spec_witness :
    tfimportBaseConfig.lookup "azurerm_storage_container" = some containerEndpoint ∧
    (specMatch containerEndpoint containerOfAccount).IsMatch = true ∧
    storageContainerResourceID sampleEnv containerEndpoint
        (specMatch containerEndpoint containerOfAccount).Values =
      .ok "https://A.blob.core.windows.net/C" ∧
    (∃ err, storageContainerResourceID sampleEnv containerEndpoint [("containerName", "C")] =
      .error err) ∧
    (∃ err, storageContainerResourceID sampleEnv containerEndpoint [("accountName", "A")] =
      .error err) :=
  ⟨by decide, by decide,
   ((storageContainerResourceID_spec sampleEnv containerEndpoint
      (specMatch containerEndpoint containerOfAccount).Values).2.2.2 rfl rfl).1 "A" "C"
      (by decide) (by decide),
   ((storageContainerResourceID_spec sampleEnv containerEndpoint
      [("containerName", "C")]).2.2.2 rfl rfl).2 (Or.inl (by decide)),
   ((storageContainerResourceID_spec sampleEnv containerEndpoint
      [("accountName", "A")]).2.2.2 rfl rfl).2 (Or.inr (by decide))⟩

/-! ## A null state on read (`getTerraformFor`) -/

theorem readResources_null (env : Env) (p : TerraformProvider) (id : String) :
    ∀ (resources : List ImportedResource) (result : String),
      (∃ resource ∈ resources,
        (p.ReadResource resource.TypeName resource.State).IsNull = true) →
      ∀ out, readResources env p id result resources = some out → ∃ err, out = .error err
  | [], _, h, _, _ => by
    obtain ⟨r, hr, _⟩ := h
    simp at hr
  | resource :: rest, result, h, out, hout => by
    rw [readResources] at hout
    by_cases hn : (p.ReadResource resource.TypeName resource.State).IsNull = true
    · simp only [hn, if_true, Option.some.injEq] at hout
      exact ⟨_, hout.symm⟩
    · have hn2 : (p.ReadResource resource.TypeName resource.State).IsNull = false := by
        simpa using hn
      simp only [hn2, Bool.false_eq_true, if_false] at hout
      have hrest : ∃ r ∈ rest, (p.ReadResource r.TypeName r.State).IsNull = true := by
        obtain ⟨r, hr, hrn⟩ := h
        rcases List.mem_cons.1 hr with h1 | h1
        · subst h1
          exact absurd hrn hn
        · exact ⟨r, h1, hrn⟩
      cases hps : printState env (p.ReadResource resource.TypeName resource.State)
          resource.TypeName (p.ResourceTypes.lookup resource.TypeName) with
      | none => simp [hps] at hout
      | some x =>
        cases x with
        | error err =>
          simp only [hps, Option.some.injEq] at hout
          exact ⟨err, hout.symm⟩
        | ok hclString =>
          simp only [hps] at hout
          exact readResources_null env p id rest _ hrest out hout

theorem readResources_null_exact (env : Env) (p : TerraformProvider) (id : String) :
    ∀ (resources : List ImportedResource) (result : String),
      (∃ resource ∈ resources,
        (p.ReadResource resource.TypeName resource.State).IsNull = true) →
      (∀ resource ∈ resources,
        (p.ReadResource resource.TypeName resource.State).IsNull = false →
        ∃ hclString, printState env (p.ReadResource resource.TypeName resource.State)
          resource.TypeName (p.ResourceTypes.lookup resource.TypeName) = some (.ok hclString)) →
      readResources env p id result resources =
        some (.error ("Null state on read for " ++ env.Quote id))
  | [], _, h, _ => by
    obtain ⟨r, hr, _⟩ := h
    simp at hr
  | resource :: rest, result, h, hok => by
    rw [readResources]
    by_cases hn : (p.ReadResource resource.TypeName resource.State).IsNull = true
    · simp only [hn, if_true]
    · have hn2 : (p.ReadResource resource.TypeName resource.State).IsNull = false := by
        simpa using hn
      simp only [hn2, Bool.false_eq_true, if_false]
      have hrest : ∃ r ∈ rest, (p.ReadResource r.TypeName r.State).IsNull = true := by
        obtain ⟨r, hr, hrn⟩ := h
        rcases List.mem_cons.1 hr with h1 | h1
        · subst h1
          exact absurd hrn hn
        · exact ⟨r, h1, hrn⟩
      obtain ⟨hclString, hps⟩ := hok resource (List.mem_cons_self _ _) hn2
      simp only [hps]
      exact readResources_null_exact env p id rest _ hrest
        (fun r hr => hok r (List.mem_cons_of_mem _ hr))

/-- C12: when the read of one of the handles that the import returned yields a null state,
whatever `getTerraformFor` returns is an error, without text; when every other handle of
the import is read and serialized successfully, it returns the error
`Null state on read for <id>`.  The null state is not skipped and no block is written for
it. -/
theorem getTerraformFor_null_state (env : Env) (e : TerraformImportExpander)
    (id resourceTypeName : String) (p : TerraformProvider) (hp : e.tfProvider = some p)
    (hnull : ∃ resource ∈ p.ImportResourceState resourceTypeName id,
      (p.ReadResource resource.TypeName resource.State).IsNull = true) :
    (∀ out, getTerraformFor env e id resourceTypeName = some out → ∃ err, out = .error err) ∧
    ((∀ resource ∈ p.ImportResourceState resourceTypeName id,
        (p.ReadResource resource.TypeName resource.State).IsNull = false →
        ∃ hclString, printState env (p.ReadResource resource.TypeName resource.State)
          resource.TypeName (p.ResourceTypes.lookup resource.TypeName) = some (.ok hclString)) →
      getTerraformFor env e id resourceTypeName =
        some (.error ("Null state on read for " ++ env.Quote id))) := by
  unfold getTerraformFor
  rw [hp]
  exact ⟨fun out hout => readResources_null env p id _ _ hnull out hout,
    fun hok => readResources_null_exact env p id _ _ hnull hok⟩

/-- The sample of C12: the import returns two handles; the first is read and serialized,
the read of the second yields a null state, and `getTerraformFor` returns the error and
none of the text of the first. -/
theorem getTerraformFor_null_state_witness :
    nullSecondExpander.tfProvider = some nullSecondProvider ∧
    (nullSecondProvider.ImportResourceState "azurerm_storage_container" "x").map
        (fun resource =>
          (nullSecondProvider.ReadResource resource.TypeName resource.State).IsNull) =
      [false, true] ∧
    printState sampleEnv (nullSecondProvider.ReadResource "azurerm_storage_container" (.str "x"))
        "azurerm_storage_container"
        (nullSecondProvider.ResourceTypes.lookup "azurerm_storage_container") =
      some (.ok "resource azurerm_storage_container my_c [name,storage_account_name]") ∧
    getTerraformFor sampleEnv nullSecondExpander "x" "azurerm_storage_container" =
      some (.error "Null state on read for <x>") ∧
    (∀ out, getTerraformFor sampleEnv nullSecondExpander "x" "azurerm_storage_container" =
      some out → ∃ err, out = .error err) :=
  ⟨rfl, rfl, rfl, rfl,
   (getTerraformFor_null_state sampleEnv nullSecondExpander "x" "azurerm_storage_container"
      nullSecondProvider rfl
      ⟨{ TypeName := "azurerm_storage_container", State := .null .primitive },
        by simp [nullSecondProvider], rfl⟩).1⟩

/-! ## The local name of the resource block (`printState`) -/

theorem replaceDashes_data (name : String) :
    (replaceDashes name).data = name.data.map (fun c => if c = '-' then '_' else c) := rfl

theorem replaceDashes_no_dash (name : String) : '-' ∉ (replaceDashes name).data := by
  rw [replaceDashes_data, List.mem_map]
  rintro ⟨c, _, hc⟩
  by_cases h : c = '-'
  · rw [if_pos h] at hc
    exact absurd hc (by decide)
  · rw [if_neg h] at hc
    exact h hc

theorem replaceDashes_get (name : String) (i : Nat) (c : Char) (h : name.data[i]? = some c) :
    (replaceDashes name).data[i]? = some (if c = '-' then '_' else c) := by
  rw [replaceDashes_data, List.getElem?_map, h]
  rfl

theorem printStateFile_named (state : Value) (resourceTypeName name : String)
    (schema : Option Block) (h : state.GetAttr "name" = some (.str name)) :
    printStateFile state resourceTypeName schema =
      match schema with
      | some terraformBlock =>
        (writeBlock [] terraformBlock state).map
          (fun body => [HclItem.block "resource" [resourceTypeName, replaceDashes name] body])
      | none => none := by
  cases state with
  | object attrs =>
    simp only [Value.GetAttr] at h
    simp only [printStateFile, Value.HasAttribute, Value.GetAttr, h, Option.isSome_some, if_true,
      Option.bind, Value.AsString, Option.map_some']
    cases schema <;> rfl
  | null ty => simp [Value.GetAttr] at h
  | str s => simp [Value.GetAttr] at h
  | number n => simp [Value.GetAttr] at h
  | bool b => simp [Value.GetAttr] at h
  | coll elems => simp [Value.GetAttr] at h

theorem printStateFile_unnamed (state : Value) (resourceTypeName : String)
    (schema : Option Block) (h : state.HasAttribute "name" = some false) :
    printStateFile state resourceTypeName schema =
      match schema with
      | some terraformBlock =>
        (writeBlock [] terraformBlock state).map
          (fun body => [HclItem.block "resource" [resourceTypeName, "todo_resource_name"] body])
      | none => none := by
  simp only [printStateFile, h, Bool.false_eq_true, if_false]
  cases schema <;> rfl

/-- C13: for a state whose attribute `name` is the string `name`, whatever `printState`
returns is the written form of one `resource` block whose local name is `name` with every
`-` replaced by `_`; that local name holds no `-`, and each of its characters other than
the replaced ones is the character of `name` at that place.  For a state without an
attribute `name` the local name is `todo_resource_name`.  In both cases `printState`
returns when the state conforms to the schema. -/
theorem printState_local_name (env : Env) (state : Value) (resourceTypeName : String)
    (schema : Option Block) :
    (∀ name, state.GetAttr "name" = some (.str name) →
      (∀ text, printState env state resourceTypeName schema = some text →
        ∃ body, text =
          env.WriteTo [.block "resource" [resourceTypeName, replaceDashes name] body]) ∧
      (∀ terraformBlock, schema = some terraformBlock → conforms terraformBlock state = true →
        ∃ text, printState env state resourceTypeName schema = some text)) ∧
    (state.HasAttribute "name" = some false →
      (∀ text, printState env state resourceTypeName schema = some text →
        ∃ body, text =
          env.WriteTo [.block "resource" [resourceTypeName, "todo_resource_name"] body]) ∧
      (∀ terraformBlock, schema = some terraformBlock → conforms terraformBlock state = true →
        ∃ text, printState env state resourceTypeName schema = some text)) ∧
    (∀ name : String,
      '-' ∉ (replaceDashes name).data ∧
      (replaceDashes name).data.length = name.data.length ∧
      ∀ (i : Nat) (c : Char), name.data[i]? = some c →
        (replaceDashes name).data[i]? = some (if c = '-' then '_' else c)) := by
  refine ⟨?_, ?_, ?_⟩
  · intro name hname
    constructor
    · intro text h
      rw [printState, printStateFile_named state resourceTypeName name schema hname] at h
      cases schema with
      | none => simp at h
      | some terraformBlock =>
        cases hw : writeBlock [] terraformBlock state with
        | none => simp [hw] at h
        | some body =>
          simp only [hw, Option.map_some', Option.some.injEq] at h
          exact ⟨body, h.symm⟩
    · intro terraformBlock hs hc
      obtain ⟨body, hw⟩ := writeBlock_returns terraformBlock state [] hc
      rw [printState, printStateFile_named state resourceTypeName name schema hname, hs]
      simp only [hw, Option.map_some']
      exact ⟨_, rfl⟩
  · intro hno
    constructor
    · intro text h
      rw [printState, printStateFile_unnamed state resourceTypeName schema hno] at h
      cases schema with
      | none => simp at h
      | some terraformBlock =>
        cases hw : writeBlock [] terraformBlock state with
        | none => simp [hw] at h
        | some body =>
          simp only [hw, Option.map_some', Option.some.injEq] at h
          exact ⟨body, h.symm⟩
    · intro terraformBlock hs hc
      obtain ⟨body, hw⟩ := writeBlock_returns terraformBlock state [] hc
      rw [printState, printStateFile_unnamed state resourceTypeName schema hno, hs]
      simp only [hw, Option.map_some']
      exact ⟨_, rfl⟩
  · intro name
    exact ⟨replaceDashes_no_dash name, by simp [replaceDashes_data],
      fun i c h => replaceDashes_get name i c h⟩

/-- The sample of C13: the state named `my-c` gets the local name `my_c`, a state without
`name` gets `todo_resource_name`. -/
theorem printState_local_name_witness :
    namedState.GetAttr "name" = some (.str "my-c") ∧
    replaceDashes "my-c" = "my_c" ∧
    printStateFile namedState "azurerm_storage_container" (some namedBlock) =
      some [.block "resource" ["azurerm_storage_container", "my_c"]
        [.attribute "name" (.str "my-c"), .attribute "storage_account_name" (.str "a")]] ∧
    (∀ text, printState sampleEnv namedState "azurerm_storage_container" (some namedBlock) =
        some text →
      ∃ body, text = sampleEnv.WriteTo
        [.block "resource" ["azurerm_storage_container", replaceDashes "my-c"] body]) ∧
    twoBlocksState.HasAttribute "name" = some false ∧
    (∀ text, printState sampleEnv twoBlocksState "azurerm_x" (some twoBlocksAB) = some text →
      ∃ body, text = sampleEnv.WriteTo
        [.block "resource" ["azurerm_x", "todo_resource_name"] body]) :=
  ⟨rfl, by decide, rfl,
   ((printState_local_name sampleEnv namedState "azurerm_storage_container"
      (some namedBlock)).1 "my-c" rfl).1,
   rfl,
   ((printState_local_name sampleEnv twoBlocksState "azurerm_x" (some twoBlocksAB)).2.1 rfl).1⟩

/-! ## The depth of the crawl -/

theorem scanBaseConfig_withTreeModel (env : Env)
    (expand : TreeNode → Except Error (List TreeNode)) (id : String) :
    ∀ (table : List (String × EndpointInfo)),
      scanBaseConfig (withTreeModel env expand) id table = scanBaseConfig env id table
  | [] => rfl
  | (n, ep) :: rest => by
    simp only [scanBaseConfig, scanBaseConfig_withTreeModel env expand id rest]
    rfl

theorem readResources_withTreeModel (env : Env)
    (expand : TreeNode → Except Error (List TreeNode)) (p : TerraformProvider) (id : String) :
    ∀ (resources : List ImportedResource) (result : String),
      readResources (withTreeModel env expand) p id result resources =
        readResources env p id result resources
  | [], _ => rfl
  | resource :: rest, result => by
    rw [readResources, readResources]
    have hp : ∀ v t sc, printState (withTreeModel env expand) v t sc = printState env v t sc :=
      fun _ _ _ => rfl
    have hq : (withTreeModel env expand).Quote = env.Quote := rfl
    simp only [hp, hq, readResources_withTreeModel env expand p id rest]

theorem getResourceTypeName_withTreeModel (env : Env)
    (expand : TreeNode → Except Error (List TreeNode)) (id : String) :
    getResourceTypeNameFromResourceID (withTreeModel env expand) id =
      getResourceTypeNameFromResourceID env id := by
  unfold getResourceTypeNameFromResourceID
  simp only [scanBaseConfig_withTreeModel]
  rfl

theorem getTerraformForResolved_withTreeModel (env : Env)
    (expand : TreeNode → Except Error (List TreeNode)) (e : TerraformImportExpander)
    (item : TreeNode) (name : String) :
    getTerraformForResolved (withTreeModel env expand) e item name =
      getTerraformForResolved env e item name := by
  unfold getTerraformForResolved getTerraformFor
  simp only [readResources_withTreeModel]
  rfl

/-- The pipeline of a node does not ask the tree model anything. -/
theorem getTerraformForNode_withTreeModel (env : Env)
    (expand : TreeNode → Except Error (List TreeNode)) (e : TerraformImportExpander)
    (item : TreeNode) :
    getTerraformForNode (withTreeModel env expand) e item = getTerraformForNode env e item := by
  unfold getTerraformForNode
  simp only [getResourceTypeName_withTreeModel, getTerraformForResolved_withTreeModel]
  rfl

theorem appendRecursed_congr
    (r1 r2 : TerraformImportExpander → TreeNode → Option (ExpanderResult × TerraformImportExpander)) :
    ∀ (children : List TreeNode) (text : String) (e : TerraformImportExpander),
      (∀ e2 child, child ∈ children → r1 e2 child = r2 e2 child) →
      appendRecursed r1 text e children = appendRecursed r2 text e children
  | [], _, _, _ => rfl
  | child :: rest, text, e, h => by
    rw [appendRecursed, appendRecursed, h e child (List.mem_cons_self _ _)]
    have ih := fun t e3 => appendRecursed_congr r1 r2 rest t e3
      (fun e2 c hc => h e2 c (List.mem_cons_of_mem _ hc))
    cases r2 e child with
    | none => rfl
    | some q =>
      obtain ⟨r, e1⟩ := q
      simp only
      cases r.Err with
      | none => exact ih _ _
      | some err => exact ih _ _

theorem crawl_eq_crawlLevel (env : Env) (depth : Nat) (e : TerraformImportExpander)
    (item : TreeNode) (last : String) :
    getTerraformForNodeRecursive env (depth + 1) e item last =
      crawlLevel env (fun e2 child => getTerraformForNodeRecursive env depth e2 child last)
        e item last := by
  rw [crawl_unfold_succ, crawlLevel]

/-- The crawl to a depth asks the tree model only about the nodes less than that depth
below the root. -/
theorem crawl_withTreeModel (env : Env) (expand : TreeNode → Except Error (List TreeNode))
    (last : String) :
    ∀ (depth : Nat) (e : TerraformImportExpander) (item : TreeNode),
      AgreeToDepth env expand depth item →
      getTerraformForNodeRecursive (withTreeModel env expand) depth e item last =
        getTerraformForNodeRecursive env depth e item last
  | 0, e, item, _ => by
    rw [crawl_unfold_zero, crawl_unfold_zero, getTerraformForNode_withTreeModel]
  | d + 1, e, item, hagree => by
    rw [crawl_unfold_succ, crawl_unfold_succ, getTerraformForNode_withTreeModel]
    cases hown : getTerraformForNode env e item with
    | none => rfl
    | some q =>
      obtain ⟨own, item1, e1⟩ := q
      obtain ⟨hexp, hchildren⟩ := hagree e own item1 e1 hown
      have hexp2 : (withTreeModel env expand).ExpandItemAllowDefaultExpander item1 =
          env.ExpandItemAllowDefaultExpander item1 := hexp
      simp only [hexp2]
      cases hc : env.ExpandItemAllowDefaultExpander item1 with
      | error err => rfl
      | ok childItems =>
        simp only
        have hret : retained (withTreeModel env expand) (contextTypeName item1 last) =
            retained env (contextTypeName item1 last) := rfl
        rw [hret]
        rw [appendRecursed_congr
          (fun e2 child => getTerraformForNodeRecursive (withTreeModel env expand) d e2 child last)
          (fun e2 child => getTerraformForNodeRecursive env d e2 child last)]
        intro e2 child hmem
        exact crawl_withTreeModel env expand last d e2 child
          (hchildren childItems hc child (List.mem_of_mem_filter hmem))

/-- C14: at depth 0 the crawl returns the fragment of the root alone, and the same for
every tree model, so the children of the root are not asked for; the crawl at depth
`depth + 1` is one level whose recursive calls are the crawl at depth `depth`; and the
crawl to a depth returns the same for every tree model that answers alike on the nodes
less than that depth below the root, so that nothing deeper than the depth is processed. -/
theorem crawl_depth_bounded (env : Env) :
    (∀ (e : TerraformImportExpander) (item : TreeNode) (last : String),
      getTerraformForNodeRecursive env 0 e item last =
        match getTerraformForNode env e item with
        | none => none
        | some (own, _, e1) => some (terraformResult (inlineFragment own), e1)) ∧
    (∀ (expand : TreeNode → Except Error (List TreeNode)) (e : TerraformImportExpander)
        (item : TreeNode) (last : String),
      getTerraformForNodeRecursive (withTreeModel env expand) 0 e item last =
        getTerraformForNodeRecursive env 0 e item last) ∧
    (∀ (depth : Nat) (e : TerraformImportExpander) (item : TreeNode) (last : String),
      getTerraformForNodeRecursive env (depth + 1) e item last =
        crawlLevel env (fun e2 child => getTerraformForNodeRecursive env depth e2 child last)
          e item last) ∧
    (∀ (depth : Nat) (expand : TreeNode → Except Error (List TreeNode))
        (e : TerraformImportExpander) (item : TreeNode) (last : String),
      AgreeToDepth env expand depth item →
      getTerraformForNodeRecursive (withTreeModel env expand) depth e item last =
        getTerraformForNodeRecursive env depth e item last) :=
  ⟨fun e item last => crawl_unfold_zero env e item last,
   fun expand e item last => crawl_withTreeModel env expand last 0 e item trivial,
   fun depth e item last => crawl_eq_crawlLevel env depth e item last,
   fun depth expand e item last h => crawl_withTreeModel env expand last depth e item h⟩

theorem getTerraformForNode_ID (env : Env) (e : TerraformImportExpander) (item : TreeNode)
    (own : ExpanderResult) (item1 : TreeNode) (e1 : TerraformImportExpander)
    (h : getTerraformForNode env e item = some (own, item1, e1)) : item1.ID = item.ID := by
  unfold getTerraformForNode at h
  rcases hi : ensureTfProviderInitialized env e with ⟨err?, e2⟩
  rw [hi] at h
  cases err? with
  | some err =>
    simp only [Option.some.injEq, Prod.mk.injEq] at h
    rw [← h.2.1]
  | none =>
    simp only at h
    split at h
    · cases hres : getResourceTypeNameFromResourceID env item.ID with
      | error err =>
        simp only [hres, Option.some.injEq, Prod.mk.injEq] at h
        rw [← h.2.1]
      | ok name =>
        simp only [hres, Option.map_eq_some', Prod.mk.injEq] at h
        obtain ⟨_, _, _, h2, _⟩ := h
        rw [← h2]
    · simp only [Option.map_eq_some', Prod.mk.injEq] at h
      obtain ⟨_, _, _, h2, _⟩ := h
      rw [← h2]

theorem deepChildren_eq {item : TreeNode} (h : item.ID ≠ containerID ++ "/blob2") :
    deepChildren item = sampleChildren item :=
  if_neg h

theorem deepChildren_agree_one (child : TreeNode) (h : child.ID ≠ containerID ++ "/blob2") :
    AgreeToDepth sampleEnv deepChildren 1 child := by
  unfold AgreeToDepth
  intro e own item1 e1 hrun
  have hid := getTerraformForNode_ID sampleEnv e child own item1 e1 hrun
  refine ⟨deepChildren_eq (by rw [hid]; exact h), ?_⟩
  intro childItems _ c _
  unfold AgreeToDepth
  trivial

set_option maxRecDepth 1000000 in
theorem deepChildren_agree : AgreeToDepth sampleEnv deepChildren 2 sampleRoot := by
  unfold AgreeToDepth
  intro e own item1 e1 hrun
  have hid : item1.ID = containerID :=
    getTerraformForNode_ID sampleEnv e sampleRoot own item1 e1 hrun
  refine ⟨deepChildren_eq (by rw [hid]; decide), ?_⟩
  intro childItems hc child hmem
  have hexp : sampleEnv.ExpandItemAllowDefaultExpander item1 =
      .ok [{ ID := "/folder", Metadata := [] },
           { ID := containerID ++ "/<diagsettings>", Metadata := [] },
           { ID := containerID ++ "/blob1", Metadata := [] }] := by
    show sampleChildren item1 = _
    unfold sampleChildren
    rw [if_pos hid]
  rw [hexp] at hc
  injection hc with hc
  subst hc
  simp only [List.mem_cons, List.mem_singleton, List.not_mem_nil, or_false] at hmem
  rcases hmem with h | h | h <;> subst h
  · exact deepChildren_agree_one _ (by decide)
  · exact deepChildren_agree_one _ (by decide)
  · exact deepChildren_agree_one _ (by decide)

set_option maxRecDepth 1000000 in
/-- The sample of C14: at depth 0 the crawl of the container returns its output alone; the
tree model in which the blob below `/folder` has a child answers as the sample tree on the
nodes less than 2 levels below the container, and the crawl to depth 2 returns the same
for both, the child of the blob not being processed; at depth 3 it is. -/
theorem crawl_depth_bounded_witness :
    (getTerraformForNodeRecursive sampleEnv 0 freshExpander sampleRoot "").map
        (fun p => (p.1.Response, p.2.resolveCalls)) =
      some ("\nresource azurerm_storage_container my_c [name,storage_account_name]\n",
        [containerID]) ∧
    AgreeToDepth sampleEnv deepChildren 2 sampleRoot ∧
    getTerraformForNodeRecursive (withTreeModel sampleEnv deepChildren) 2 freshExpander
        sampleRoot "" =
      getTerraformForNodeRecursive sampleEnv 2 freshExpander sampleRoot "" ∧
    (getTerraformForNodeRecursive (withTreeModel sampleEnv deepChildren) 2 freshExpander
        sampleRoot "").map (fun p => p.2.resolveCalls) =
      some [containerID, "/folder", containerID ++ "/blob2"] ∧
    (getTerraformForNodeRecursive (withTreeModel sampleEnv deepChildren) 3 freshExpander
        sampleRoot "").map (fun p => p.2.resolveCalls) =
      some [containerID, "/folder", containerID ++ "/blob2", "/deeper"] :=
  ⟨rfl, deepChildren_agree,
   (crawl_depth_bounded sampleEnv).2.2.2 2 deepChildren freshExpander sampleRoot ""
     deepChildren_agree,
   rfl, rfl⟩

end Expanders
